import Mathlib

/-!
# Verification of the mysong-compress compression cache and pipeline

Shallow embedding of the repository's core (src/CompressionCache.ts and the
integration pipeline in src/index.ts) together with proofs settling the
frozen claims C1..C10.

Modelling conventions:
* File contents (Node `Buffer`s) are `List Nat` (the byte sequence).
* JavaScript objects used as maps (`manifest.entries`, the on-disk file
  trees) are association lists `List (String × α)`; `insertA` mirrors JS
  property assignment (replace in place, else append) and `eraseA` mirrors
  the `delete` operator.
* JSON-compatible settings values are the inductive `Json`, with object
  fields kept in insertion order exactly as a JS engine does; `stringify`
  models `JSON.stringify` (fields serialized in that order).
* The filesystem is split into the build-output tree (`dist`, keyed by
  candidate path) and the cache directory (`CacheFS`: directory-exists
  flag, manifest file, artifact files).  These live in physically
  disjoint directories in the program, so the split is a frame fact.
-/

namespace MySongCompress

/-! ## JSON values and JSON.stringify -/

/-- JSON-compatible value.  Object fields are kept in insertion order,
as JavaScript objects do for non-integer keys. -/
inductive Json where
  | null : Json
  | bool (b : Bool) : Json
  | num (n : Int) : Json
  | str (s : String) : Json
  | arr (elems : List Json) : Json
  | obj (fields : List (String × Json)) : Json

/-- Escape a character for a JSON string literal (quote and backslash). -/
def escapeChar (c : Char) : String :=
  if c = '"' ∨ c = '\\' then String.mk ['\\', c] else String.mk [c]

/-- Escape a string for a JSON string literal. -/
def escapeStr (s : String) : String :=
  String.join (s.toList.map escapeChar)

/-- A JSON string literal: `"…"` with escaping. -/
def jquote (s : String) : String := "\"" ++ escapeStr s ++ "\""

mutual
/-- Model of `JSON.stringify` on a `Json` value: object fields are
serialized in stored (insertion) order. -/
def stringify : Json → String
  | .null => "null"
  | .bool true => "true"
  | .bool false => "false"
  | .num n => toString n
  | .str s => jquote s
  | .arr l => "[" ++ stringifyElems l ++ "]"
  | .obj l => "\x7b" ++ stringifyFields l ++ "\x7d"

/-- Serialize array elements, comma separated. -/
def stringifyElems : List Json → String
  | [] => ""
  | [x] => stringify x
  | x :: y :: xs => stringify x ++ "," ++ stringifyElems (y :: xs)

/-- Serialize object fields, comma separated, in list order. -/
def stringifyFields : List (String × Json) → String
  | [] => ""
  | [(k, v)] => jquote k ++ ":" ++ stringify v
  | (k, v) :: y :: xs => jquote k ++ ":" ++ stringify v ++ "," ++ stringifyFields (y :: xs)
end

/-- Insert a field into a key-sorted field list (insertion sort step). -/
def insertSorted (x : String × Json) : List (String × Json) → List (String × Json)
  | [] => [x]
  | y :: ys => if x.1 ≤ y.1 then x :: y :: ys else y :: insertSorted x ys

/-- Sort object fields by key (used only to define order-insensitive
structural equality of settings values, for claim C3). -/
def sortFields : List (String × Json) → List (String × Json)
  | [] => []
  | x :: xs => insertSorted x (sortFields xs)

mutual
/-- Normal form of a `Json` value in which every object's fields are
sorted by key.  Two values are structurally equal (deep equality,
independent of key order) iff their normal forms are equal. -/
def jsonNormalize : Json → Json
  | .null => .null
  | .bool b => .bool b
  | .num n => .num n
  | .str s => .str s
  | .arr l => .arr (jsonNormalizeElems l)
  | .obj l => .obj (sortFields (jsonNormalizeFields l))

/-- Normalize every element of an array. -/
def jsonNormalizeElems : List Json → List Json
  | [] => []
  | x :: xs => jsonNormalize x :: jsonNormalizeElems xs

/-- Normalize every field value of an object. -/
def jsonNormalizeFields : List (String × Json) → List (String × Json)
  | [] => []
  | (k, v) :: xs => (k, jsonNormalize v) :: jsonNormalizeFields xs
end

/-- Deep structural equality of `Json` values, insensitive to object key
order: equality of key-sorted normal forms. -/
def jsonStructEq (a b : Json) : Prop := jsonNormalize a = jsonNormalize b

/-! ## Association maps with JavaScript object semantics -/

/-- Lookup in an association list (JS property read). -/
def lookupA {α : Type} : List (String × α) → String → Option α
  | [], _ => none
  | (k, v) :: rest, p => if p = k then some v else lookupA rest p

/-- Insert/overwrite in an association list (JS property assignment:
replace the existing binding in place, otherwise append). -/
def insertA {α : Type} : List (String × α) → String → α → List (String × α)
  | [], p, v => [(p, v)]
  | (k, w) :: rest, p, v => if p = k then (k, v) :: rest else (k, w) :: insertA rest p v

/-- Remove from an association list (JS `delete` operator). -/
def eraseA {α : Type} : List (String × α) → String → List (String × α)
  | [], _ => []
  | (k, w) :: rest, p => if p = k then eraseA rest p else (k, w) :: eraseA rest p

@[simp] theorem lookupA_nil {α : Type} (p : String) : lookupA ([] : List (String × α)) p = none := rfl

@[simp] theorem lookupA_insertA_self {α : Type} (m : List (String × α)) (p : String) (v : α) :
    lookupA (insertA m p v) p = some v := by
  induction m with
  | nil => simp [insertA, lookupA]
  | cons kv rest ih =>
    obtain ⟨k, w⟩ := kv
    by_cases h : p = k <;> simp [insertA, lookupA, h, ih]

theorem lookupA_insertA_ne {α : Type} (m : List (String × α)) {p q : String} (v : α)
    (h : q ≠ p) : lookupA (insertA m p v) q = lookupA m q := by
  induction m with
  | nil => simp [insertA, lookupA, h]
  | cons kv rest ih =>
    obtain ⟨k, w⟩ := kv
    by_cases hk : p = k
    · subst hk
      simp [insertA, lookupA, h]
    · by_cases hq : q = k <;> simp [insertA, lookupA, hk, hq, ih]

@[simp] theorem lookupA_eraseA_self {α : Type} (m : List (String × α)) (p : String) :
    lookupA (eraseA m p) p = none := by
  induction m with
  | nil => simp [eraseA]
  | cons kv rest ih =>
    obtain ⟨k, w⟩ := kv
    by_cases h : p = k
    · subst h
      simp [eraseA, ih]
    · simp [eraseA, lookupA, h, ih]

theorem lookupA_eraseA_ne {α : Type} (m : List (String × α)) {p q : String}
    (h : q ≠ p) : lookupA (eraseA m p) q = lookupA m q := by
  induction m with
  | nil => simp [eraseA]
  | cons kv rest ih =>
    obtain ⟨k, w⟩ := kv
    by_cases hk : p = k
    · subst hk
      simp [eraseA, lookupA, h, ih]
    · by_cases hq : q = k <;> simp [eraseA, lookupA, hk, hq, ih]

/-- Overwriting a binding with the value it already has is the identity
(JS property assignment with an equal value leaves the object equal). -/
theorem insertA_same {α : Type} (m : List (String × α)) {p : String} {v : α}
    (h : lookupA m p = some v) : insertA m p v = m := by
  induction m with
  | nil => simp [lookupA] at h
  | cons kv rest ih =>
    obtain ⟨k, w⟩ := kv
    by_cases hk : p = k
    · subst hk
      simp [lookupA] at h
      simp [insertA, h]
    · simp [lookupA, hk] at h
      simp [insertA, hk, ih h]

/-! ## Data model (src/types.ts, src/CompressionCache.ts)

`UsedFormatConfig` is `{ config: ValueOf<FormatCompressionOptions>; format: string } | null`;
`config` may be the JS value `undefined` when the format key was resolved
through the alias table but is absent from the merged config object, so it
is modelled as `Option Json` (`none` = `undefined`), and the whole value as
an `Option` (`none` = `null`). -/

/-- The `{ config, format }` record returned by `getUsedConfig`. -/
structure FormatConfigVal where
  config : Option Json
  format : String

/-- `UsedFormatConfig`: a `{config, format}` record or `null`. -/
abbrev UsedFormatConfig := Option FormatConfigVal

/-- `JSON.stringify` applied to a `UsedFormatConfig` value.  The object
literal `{ config, format }` stringifies its keys in insertion order
(`config` first); a `config` holding `undefined` is dropped, and the value
`null` stringifies to `"null"`. -/
def stringifyUsed : UsedFormatConfig → String
  | none => "null"
  | some fc =>
    match fc.config with
    | none => "\x7b" ++ jquote "format" ++ ":" ++ jquote fc.format ++ "\x7d"
    | some c =>
        "\x7b" ++ jquote "config" ++ ":" ++ stringify c ++ ","
            ++ jquote "format" ++ ":" ++ jquote fc.format ++ "\x7d"

/-- `size: { original, compressed }` of a cache entry. -/
structure SizeInfo where
  original : Nat
  compressed : Nat

/-- `CacheEntry` (src/CompressionCache.ts). -/
structure CacheEntry where
  sourceHash : String
  compressedPath : String
  timestamp : Nat
  settings : UsedFormatConfig
  size : SizeInfo

/-- `CompressionCache`: the manifest `{ version, entries }`. -/
structure Manifest where
  version : String
  entries : List (String × CacheEntry)

/-- The manifest the constructor installs: `{ version: '1', entries: {} }`. -/
def emptyManifest : Manifest := ⟨"1", []⟩

/-- On-disk manifest file: absent, unparseable, or a stored manifest.
Storing the `Manifest` value models storing its JSON serialization
(`saveManifest` writes `JSON.stringify(manifest)`, `loadManifest` parses
it back). -/
inductive ManifestFile where
  | missing : ManifestFile
  | corrupt : ManifestFile
  | stored (m : Manifest) : ManifestFile

/-- The cache directory's slice of the filesystem: whether the directory
exists, the `manifest.json` file, and the compressed artifact files
(path ↦ bytes). -/
structure CacheFS where
  dirExists : Bool
  manifestFile : ManifestFile
  artifacts : List (String × List Nat)

/-- A cache directory that has never been touched. -/
def emptyCacheFS : CacheFS := ⟨false, .missing, []⟩

/-- In-memory state of a `CompressionCacheManagerImpl` (cacheDir and the
mutable manifest; the logger is ignored). -/
structure Manager where
  cacheDir : String
  manifest : Manifest

/-- The constructor: `this.manifest = { version: '1', entries: {} }`. -/
def newManager (dir : String) : Manager := ⟨dir, emptyManifest⟩

/-! ## Cache manager operations (src/CompressionCache.ts) -/

/-- `loadManifest`: `readFileSync` then `JSON.parse`; `none` models a
thrown exception (missing or corrupt file). -/
def loadManifest (mgr : Manager) (fs : CacheFS) : Option Manager :=
  match fs.manifestFile with
  | .stored m => some { mgr with manifest := m }
  | _ => none

/-- `saveManifest`: writes the serialized manifest to
`cacheDir/manifest.json`. -/
def saveManifest (mgr : Manager) (fs : CacheFS) : CacheFS :=
  { fs with manifestFile := .stored mgr.manifest }

/-- The manager's init method (`mkdirSync(cacheDir, { recursive: true })`,
then try `loadManifest`; on failure keep the constructor's manifest and
persist it with `saveManifest`).  Total: it never propagates an error. -/
def initManager (mgr : Manager) (fs : CacheFS) : Manager × CacheFS :=
  let fs1 : CacheFS := { fs with dirExists := true }
  match loadManifest mgr fs1 with
  | some mgr2 => (mgr2, fs1)
  | none => (mgr, saveManifest mgr fs1)

/-- `invalidateCache(originalPath?)`: reads
`this.manifest.entries[originalPath].compressedPath` (throwing a
`TypeError`, modelled as `Except.error`, when there is no such entry —
a missing argument reads property `"undefined"` after JS key coercion),
fire-and-forget `unlink`s the artifact (deletion failure is only logged,
so a missing artifact is no error), and deletes the manifest entry. -/
def invalidateCache (mgr : Manager) (fs : CacheFS) (originalPath : Option String) :
    Except Unit (Manager × CacheFS) :=
  let key := match originalPath with
    | some p => p
    | none => "undefined"
  match lookupA mgr.manifest.entries key with
  | none => Except.error ()
  | some entry =>
    Except.ok
      ({ mgr with manifest := { mgr.manifest with entries := eraseA mgr.manifest.entries key } },
       { fs with artifacts := eraseA fs.artifacts entry.compressedPath })

/-- `getCachedFile(originalPath, originalHash, settings)`: manifest lookup,
hash check, settings check by comparing `JSON.stringify` of the two
settings values, then a `stat` of the cached artifact.  Returns the entry
on a hit, and threads the (possibly invalidated) manager/filesystem
state. -/
def getCachedFile (mgr : Manager) (fs : CacheFS) (originalPath originalHash : String)
    (settings : UsedFormatConfig) : Option CacheEntry × Manager × CacheFS :=
  match lookupA mgr.manifest.entries originalPath with
  | none => (none, mgr, fs)
  | some entry =>
    if entry.sourceHash ≠ originalHash then
      match invalidateCache mgr fs (some originalPath) with
      | .ok (mgr2, fs2) => (none, mgr2, fs2)
      | .error _ => (none, mgr, fs)
    else if stringifyUsed entry.settings ≠ stringifyUsed settings then
      match invalidateCache mgr fs (some originalPath) with
      | .ok (mgr2, fs2) => (none, mgr2, fs2)
      | .error _ => (none, mgr, fs)
    else
      match lookupA fs.artifacts entry.compressedPath with
      | some _ => (some entry, mgr, fs)
      | none =>
        (none,
         { mgr with manifest := { mgr.manifest with entries := eraseA mgr.manifest.entries originalPath } },
         fs)

/-- Last element of a list, with a default (structural, so that concrete
witnesses evaluate). -/
def lastD {α : Type} (d : α) : List α → α
  | [] => d
  | [x] => x
  | _ :: y :: xs => lastD d (y :: xs)

/-- Split a character list on a separator character — the model of
JavaScript `split('.')` for a one-character separator. -/
def splitOnChar (sep : Char) : List Char → List (List Char)
  | [] => [[]]
  | c :: cs =>
    if c = sep then [] :: splitOnChar sep cs
    else
      match splitOnChar sep cs with
      | [] => [[c]]
      | g :: gs => (c :: g) :: gs

/-- `originalPath.split('.').pop() || ''`: the final dot-separated
component of the path (the empty string stays empty under `|| ''`). -/
def extLast (p : String) : String := String.mk (lastD [] (splitOnChar '.' p.toList))

/-- `path.join(dir, name)`. -/
def pathJoin (dir name : String) : String := dir ++ "/" ++ name

/-- The deterministic artifact path `cacheDir/<hash>.<ext>` that
`saveToCache` writes to. -/
def cachedPathFor (cacheDir originalPath originalHash : String) : String :=
  pathJoin cacheDir (originalHash ++ "." ++ extLast originalPath)

/-- `saveToCache(originalPath, originalHash, originalLength,
compressedContent, settings)`: writes the artifact at the deterministic
path, then inserts/overwrites the manifest entry.  `now` stands for
`Date.now()`. -/
def saveToCache (mgr : Manager) (fs : CacheFS) (originalPath originalHash : String)
    (originalLength : Nat) (compressedContent : List Nat) (settings : UsedFormatConfig)
    (now : Nat) : Manager × CacheFS :=
  let cachedFilePath := cachedPathFor mgr.cacheDir originalPath originalHash
  let entry : CacheEntry :=
    { sourceHash := originalHash
      compressedPath := cachedFilePath
      timestamp := now
      settings := settings
      size := { original := originalLength, compressed := compressedContent.length } }
  ({ mgr with manifest := { mgr.manifest with entries := insertA mgr.manifest.entries originalPath entry } },
   { fs with artifacts := insertA fs.artifacts cachedFilePath compressedContent })

/-! ## Branch lemmas for the cache manager -/

theorem invalidateCache_found (mgr : Manager) (fs : CacheFS) (p : String) (e : CacheEntry)
    (he : lookupA mgr.manifest.entries p = some e) :
    invalidateCache mgr fs (some p) =
      .ok ({ mgr with manifest := { mgr.manifest with entries := eraseA mgr.manifest.entries p } },
           { fs with artifacts := eraseA fs.artifacts e.compressedPath }) := by
  unfold invalidateCache
  simp [he]

theorem invalidateCache_error (mgr : Manager) (fs : CacheFS) (arg : Option String)
    (h0 : lookupA mgr.manifest.entries (arg.getD "undefined") = none) :
    invalidateCache mgr fs arg = .error () := by
  unfold invalidateCache
  cases arg <;> simp_all

theorem getCachedFile_noEntry (mgr : Manager) (fs : CacheFS) (p h : String)
    (s : UsedFormatConfig) (h0 : lookupA mgr.manifest.entries p = none) :
    getCachedFile mgr fs p h s = (none, mgr, fs) := by
  unfold getCachedFile
  simp [h0]

theorem getCachedFile_hashMismatch (mgr : Manager) (fs : CacheFS) (p h : String)
    (s : UsedFormatConfig) (e : CacheEntry)
    (he : lookupA mgr.manifest.entries p = some e) (hne : e.sourceHash ≠ h) :
    getCachedFile mgr fs p h s =
      (none,
       { mgr with manifest := { mgr.manifest with entries := eraseA mgr.manifest.entries p } },
       { fs with artifacts := eraseA fs.artifacts e.compressedPath }) := by
  unfold getCachedFile
  simp [he, hne, invalidateCache_found mgr fs p e he]

theorem getCachedFile_settingsMismatch (mgr : Manager) (fs : CacheFS) (p h : String)
    (s : UsedFormatConfig) (e : CacheEntry)
    (he : lookupA mgr.manifest.entries p = some e) (hh : e.sourceHash = h)
    (hset : stringifyUsed e.settings ≠ stringifyUsed s) :
    getCachedFile mgr fs p h s =
      (none,
       { mgr with manifest := { mgr.manifest with entries := eraseA mgr.manifest.entries p } },
       { fs with artifacts := eraseA fs.artifacts e.compressedPath }) := by
  unfold getCachedFile
  simp [he, hh, hset, invalidateCache_found mgr fs p e he]

theorem getCachedFile_staleDrop (mgr : Manager) (fs : CacheFS) (p h : String)
    (s : UsedFormatConfig) (e : CacheEntry)
    (he : lookupA mgr.manifest.entries p = some e) (hh : e.sourceHash = h)
    (hset : stringifyUsed e.settings = stringifyUsed s)
    (hart : lookupA fs.artifacts e.compressedPath = none) :
    getCachedFile mgr fs p h s =
      (none,
       { mgr with manifest := { mgr.manifest with entries := eraseA mgr.manifest.entries p } },
       fs) := by
  unfold getCachedFile
  simp [he, hh, hset, hart]

theorem getCachedFile_hit (mgr : Manager) (fs : CacheFS) (p h : String)
    (s : UsedFormatConfig) (e : CacheEntry) (b : List Nat)
    (he : lookupA mgr.manifest.entries p = some e) (hh : e.sourceHash = h)
    (hset : stringifyUsed e.settings = stringifyUsed s)
    (hart : lookupA fs.artifacts e.compressedPath = some b) :
    getCachedFile mgr fs p h s = (some e, mgr, fs) := by
  unfold getCachedFile
  simp [he, hh, hset, hart]

/-! ## Claims about the cache manager -/

/-- **C2**: for every call `getCachedFile(path, currentHash, currentSettings)`:
with no manifest entry for `path` it returns absent and leaves the whole
state unchanged; on a source-hash mismatch, or when the serialized settings
differ (the code's settings comparison is `JSON.stringify` equality), the
entry is invalidated (artifact deleted from disk, entry removed) and absent
is returned; when the cached artifact no longer exists on disk the manifest
entry is dropped with no file deletion and absent is returned; otherwise
the entry itself is returned with the state unchanged. -/
theorem claim_C2_getCachedFile_spec (mgr : Manager) (fs : CacheFS) (p h : String)
    (s : UsedFormatConfig) :
    (lookupA mgr.manifest.entries p = none →
      getCachedFile mgr fs p h s = (none, mgr, fs)) ∧
    (∀ e, lookupA mgr.manifest.entries p = some e → e.sourceHash ≠ h →
      getCachedFile mgr fs p h s =
        (none,
         { mgr with manifest := { mgr.manifest with entries := eraseA mgr.manifest.entries p } },
         { fs with artifacts := eraseA fs.artifacts e.compressedPath })) ∧
    (∀ e, lookupA mgr.manifest.entries p = some e → e.sourceHash = h →
      stringifyUsed e.settings ≠ stringifyUsed s →
      getCachedFile mgr fs p h s =
        (none,
         { mgr with manifest := { mgr.manifest with entries := eraseA mgr.manifest.entries p } },
         { fs with artifacts := eraseA fs.artifacts e.compressedPath })) ∧
    (∀ e, lookupA mgr.manifest.entries p = some e → e.sourceHash = h →
      stringifyUsed e.settings = stringifyUsed s →
      lookupA fs.artifacts e.compressedPath = none →
      getCachedFile mgr fs p h s =
        (none,
         { mgr with manifest := { mgr.manifest with entries := eraseA mgr.manifest.entries p } },
         fs)) ∧
    (∀ e b, lookupA mgr.manifest.entries p = some e → e.sourceHash = h →
      stringifyUsed e.settings = stringifyUsed s →
      lookupA fs.artifacts e.compressedPath = some b →
      getCachedFile mgr fs p h s = (some e, mgr, fs)) := by
  refine ⟨?_, ?_, ?_, ?_, ?_⟩
  · exact fun h0 => getCachedFile_noEntry mgr fs p h s h0
  · exact fun e he hne => getCachedFile_hashMismatch mgr fs p h s e he hne
  · exact fun e he hh hset => getCachedFile_settingsMismatch mgr fs p h s e he hh hset
  · exact fun e he hh hset hart => getCachedFile_staleDrop mgr fs p h s e he hh hset hart
  · exact fun e b he hh hset hart => getCachedFile_hit mgr fs p h s e b he hh hset hart

/-- Witness for C2: a concrete cache hit and a concrete hash-mismatch
invalidation, obtained by applying the claim theorem. -/
theorem claim_C2_witness :
    (lookupA (Manager.mk "cd" ⟨"1", [("a.css", ⟨"h1", "cd/h1.css", 0, none, ⟨9, 5⟩⟩)]⟩).manifest.entries "a.css"
        = some ⟨"h1", "cd/h1.css", 0, none, ⟨9, 5⟩⟩ ∧
      getCachedFile (Manager.mk "cd" ⟨"1", [("a.css", ⟨"h1", "cd/h1.css", 0, none, ⟨9, 5⟩⟩)]⟩)
          (CacheFS.mk true (.stored emptyManifest) [("cd/h1.css", [1, 2])]) "a.css" "h1" none
        = (some ⟨"h1", "cd/h1.css", 0, none, ⟨9, 5⟩⟩,
           Manager.mk "cd" ⟨"1", [("a.css", ⟨"h1", "cd/h1.css", 0, none, ⟨9, 5⟩⟩)]⟩,
           CacheFS.mk true (.stored emptyManifest) [("cd/h1.css", [1, 2])])) ∧
    getCachedFile (Manager.mk "cd" ⟨"1", [("a.css", ⟨"h1", "cd/h1.css", 0, none, ⟨9, 5⟩⟩)]⟩)
        (CacheFS.mk true (.stored emptyManifest) [("cd/h1.css", [1, 2])]) "a.css" "h2" none
      = (none, Manager.mk "cd" ⟨"1", []⟩,
         CacheFS.mk true (.stored emptyManifest) []) := by
  refine ⟨⟨rfl, ?_⟩, ?_⟩
  · exact (claim_C2_getCachedFile_spec _ _ _ _ _).2.2.2.2 _ [1, 2] rfl rfl rfl rfl
  · have := (claim_C2_getCachedFile_spec
      (Manager.mk "cd" ⟨"1", [("a.css", ⟨"h1", "cd/h1.css", 0, none, ⟨9, 5⟩⟩)]⟩)
      (CacheFS.mk true (.stored emptyManifest) [("cd/h1.css", [1, 2])])
      "a.css" "h2" none).2.1 ⟨"h1", "cd/h1.css", 0, none, ⟨9, 5⟩⟩ rfl (by simp)
    simpa [eraseA] using this

/-- **C3** (counterexample): the settings comparison in `getCachedFile` is
`JSON.stringify` equality, which is sensitive to object key order.  The
two settings values below are structurally equal (deep equality modulo
key order) yet serialize differently, and `getCachedFile` *does*
invalidate the entry: it returns absent, removes the entry and deletes
the artifact — contradicting the claim that no invalidation happens for
structurally equal settings. -/
theorem claim_C3_counterexample :
    jsonStructEq (Json.obj [("a", Json.num 1), ("b", Json.num 2)])
      (Json.obj [("b", Json.num 2), ("a", Json.num 1)]) ∧
    stringifyUsed (some ⟨some (Json.obj [("a", Json.num 1), ("b", Json.num 2)]), "css"⟩) ≠
      stringifyUsed (some ⟨some (Json.obj [("b", Json.num 2), ("a", Json.num 1)]), "css"⟩) ∧
    getCachedFile
        (Manager.mk "cd" ⟨"1",
          [("a.css", ⟨"h1", "cd/h1.css", 0,
            some ⟨some (Json.obj [("a", Json.num 1), ("b", Json.num 2)]), "css"⟩, ⟨9, 5⟩⟩)]⟩)
        (CacheFS.mk true (.stored emptyManifest) [("cd/h1.css", [1, 2])])
        "a.css" "h1"
        (some ⟨some (Json.obj [("b", Json.num 2), ("a", Json.num 1)]), "css"⟩)
      = (none, Manager.mk "cd" ⟨"1", []⟩,
         CacheFS.mk true (.stored emptyManifest) []) := by
  refine ⟨?_, ?_, ?_⟩
  · simp [jsonStructEq, jsonNormalize, jsonNormalizeFields, sortFields, insertSorted,
      show (['a'] ≤ ['b']) by decide, show ¬(['b'] ≤ ['a']) by decide]
  · decide
  · have := getCachedFile_settingsMismatch
      (Manager.mk "cd" ⟨"1",
        [("a.css", ⟨"h1", "cd/h1.css", 0,
          some ⟨some (Json.obj [("a", Json.num 1), ("b", Json.num 2)]), "css"⟩, ⟨9, 5⟩⟩)]⟩)
      (CacheFS.mk true (.stored emptyManifest) [("cd/h1.css", [1, 2])])
      "a.css" "h1"
      (some ⟨some (Json.obj [("b", Json.num 2), ("a", Json.num 1)]), "css"⟩)
      ⟨"h1", "cd/h1.css", 0,
        some ⟨some (Json.obj [("a", Json.num 1), ("b", Json.num 2)]), "css"⟩, ⟨9, 5⟩⟩
      rfl rfl (by decide)
    simpa [eraseA] using this

/-- **C3** (amended): the settings-fingerprint comparison in
`getCachedFile` is equality of the `JSON.stringify` serializations of the
two settings values.  Entries whose stored settings serialize differently
from the current settings — including structurally equal values whose keys
serialize in different orders — are invalidated; the entry escapes
invalidation exactly when the serialized forms coincide, in which case no
artifact is deleted. -/
theorem claim_C3_amended (mgr : Manager) (fs : CacheFS) (p h : String)
    (s : UsedFormatConfig) (e : CacheEntry)
    (he : lookupA mgr.manifest.entries p = some e) (hh : e.sourceHash = h) :
    (stringifyUsed e.settings ≠ stringifyUsed s →
      getCachedFile mgr fs p h s =
        (none,
         { mgr with manifest := { mgr.manifest with entries := eraseA mgr.manifest.entries p } },
         { fs with artifacts := eraseA fs.artifacts e.compressedPath })) ∧
    (stringifyUsed e.settings = stringifyUsed s →
      (getCachedFile mgr fs p h s).2.2 = fs) := by
  constructor
  · exact fun hset => getCachedFile_settingsMismatch mgr fs p h s e he hh hset
  · intro hset
    cases hart : lookupA fs.artifacts e.compressedPath with
    | none => rw [getCachedFile_staleDrop mgr fs p h s e he hh hset hart]
    | some b => rw [getCachedFile_hit mgr fs p h s e b he hh hset hart]

/-- Witness for the amended C3: the concrete key-order mismatch of the
counterexample invalidates, and serialization-equal settings do not. -/
theorem claim_C3_amended_witness :
    (stringifyUsed (some ⟨some (Json.obj [("a", Json.num 1), ("b", Json.num 2)]), "css"⟩) ≠
      stringifyUsed (some ⟨some (Json.obj [("b", Json.num 2), ("a", Json.num 1)]), "css"⟩)) ∧
    (getCachedFile
        (Manager.mk "cd" ⟨"1",
          [("a.css", ⟨"h1", "cd/h1.css", 0,
            some ⟨some (Json.obj [("a", Json.num 1), ("b", Json.num 2)]), "css"⟩, ⟨9, 5⟩⟩)]⟩)
        (CacheFS.mk true (.stored emptyManifest) [("cd/h1.css", [1, 2])])
        "a.css" "h1"
        (some ⟨some (Json.obj [("b", Json.num 2), ("a", Json.num 1)]), "css"⟩)).2.1.manifest.entries
      = [] ∧
    (getCachedFile
        (Manager.mk "cd" ⟨"1",
          [("a.css", ⟨"h1", "cd/h1.css", 0,
            some ⟨some (Json.obj [("a", Json.num 1), ("b", Json.num 2)]), "css"⟩, ⟨9, 5⟩⟩)]⟩)
        (CacheFS.mk true (.stored emptyManifest) [("cd/h1.css", [1, 2])])
        "a.css" "h1"
        (some ⟨some (Json.obj [("a", Json.num 1), ("b", Json.num 2)]), "css"⟩)).2.2
      = CacheFS.mk true (.stored emptyManifest) [("cd/h1.css", [1, 2])] := by
  refine ⟨by decide, ?_, ?_⟩
  · have := (claim_C3_amended
      (Manager.mk "cd" ⟨"1",
        [("a.css", ⟨"h1", "cd/h1.css", 0,
          some ⟨some (Json.obj [("a", Json.num 1), ("b", Json.num 2)]), "css"⟩, ⟨9, 5⟩⟩)]⟩)
      (CacheFS.mk true (.stored emptyManifest) [("cd/h1.css", [1, 2])])
      "a.css" "h1"
      (some ⟨some (Json.obj [("b", Json.num 2), ("a", Json.num 1)]), "css"⟩)
      ⟨"h1", "cd/h1.css", 0,
        some ⟨some (Json.obj [("a", Json.num 1), ("b", Json.num 2)]), "css"⟩, ⟨9, 5⟩⟩
      rfl rfl).1 (by decide)
    rw [this]
    simp [eraseA]
  · exact (claim_C3_amended
      (Manager.mk "cd" ⟨"1",
        [("a.css", ⟨"h1", "cd/h1.css", 0,
          some ⟨some (Json.obj [("a", Json.num 1), ("b", Json.num 2)]), "css"⟩, ⟨9, 5⟩⟩)]⟩)
      (CacheFS.mk true (.stored emptyManifest) [("cd/h1.css", [1, 2])])
      "a.css" "h1"
      (some ⟨some (Json.obj [("a", Json.num 1), ("b", Json.num 2)]), "css"⟩)
      ⟨"h1", "cd/h1.css", 0,
        some ⟨some (Json.obj [("a", Json.num 1), ("b", Json.num 2)]), "css"⟩, ⟨9, 5⟩⟩
      rfl rfl).2 rfl

/-- **C7**: the manager's init never fails the build (it is a total
function here because every step of the source — `mkdirSync` with
`recursive: true`, the guarded `loadManifest`, `saveManifest` — is
non-throwing in this model, and the `try/catch` swallows every load
error): it creates the cache directory, on a successful load it adopts
the stored manifest, and on any load failure (missing or corrupt
manifest file) it keeps the constructor's empty manifest and immediately
persists that empty manifest, touching nothing else. -/
theorem claim_C7_init_total (dir : String) (fs : CacheFS) :
    ((initManager (newManager dir) fs).2.dirExists = true) ∧
    (∀ m, fs.manifestFile = .stored m →
      initManager (newManager dir) fs =
        (Manager.mk dir m, { fs with dirExists := true })) ∧
    ((fs.manifestFile = .missing ∨ fs.manifestFile = .corrupt) →
      initManager (newManager dir) fs =
        (Manager.mk dir emptyManifest,
         { fs with dirExists := true, manifestFile := .stored emptyManifest })) := by
  refine ⟨?_, ?_, ?_⟩
  · unfold initManager loadManifest
    cases h : fs.manifestFile <;> simp [h, saveManifest]
  · intro m hm
    unfold initManager loadManifest
    simp [hm, newManager]
  · rintro (hm | hm) <;>
      simp [initManager, loadManifest, hm, saveManifest, newManager, emptyManifest]

/-- Witness for C7: initializing over a pristine directory (no manifest)
creates the directory and persists the empty manifest. -/
theorem claim_C7_witness :
    emptyCacheFS.manifestFile = ManifestFile.missing ∧
    initManager (newManager "cd") emptyCacheFS =
      (Manager.mk "cd" emptyManifest, CacheFS.mk true (.stored emptyManifest) []) :=
  ⟨rfl, (claim_C7_init_total "cd" emptyCacheFS).2.2 (Or.inl rfl)⟩

/-- **C9**: two `saveToCache` calls with distinct original paths but the
same source hash and the same final extension produce manifest entries
sharing one `compressedPath` (`cacheDir/<hash>.<ext>`); invalidating
either path then unlinks that single shared artifact even though the
other path's still-present entry references it. -/
theorem claim_C9_shared_artifact (mgr : Manager) (fs : CacheFS)
    (p1 p2 h : String) (len1 len2 : Nat) (c1 c2 : List Nat)
    (s1 s2 : UsedFormatConfig) (t1 t2 : Nat)
    (hne : p2 ≠ p1) (hext : extLast p1 = extLast p2) :
    ∃ e1 e2,
      lookupA (saveToCache (saveToCache mgr fs p1 h len1 c1 s1 t1).1
          (saveToCache mgr fs p1 h len1 c1 s1 t1).2 p2 h len2 c2 s2 t2).1.manifest.entries p1
        = some e1 ∧
      lookupA (saveToCache (saveToCache mgr fs p1 h len1 c1 s1 t1).1
          (saveToCache mgr fs p1 h len1 c1 s1 t1).2 p2 h len2 c2 s2 t2).1.manifest.entries p2
        = some e2 ∧
      e1.compressedPath = e2.compressedPath ∧
      ∀ mgr3 fs3,
        invalidateCache (saveToCache (saveToCache mgr fs p1 h len1 c1 s1 t1).1
            (saveToCache mgr fs p1 h len1 c1 s1 t1).2 p2 h len2 c2 s2 t2).1
          (saveToCache (saveToCache mgr fs p1 h len1 c1 s1 t1).1
            (saveToCache mgr fs p1 h len1 c1 s1 t1).2 p2 h len2 c2 s2 t2).2
          (some p1) = .ok (mgr3, fs3) →
        lookupA fs3.artifacts e2.compressedPath = none ∧
        lookupA mgr3.manifest.entries p2 = some e2 := by
  have hcd : (saveToCache mgr fs p1 h len1 c1 s1 t1).1.cacheDir = mgr.cacheDir := rfl
  refine ⟨⟨h, cachedPathFor mgr.cacheDir p1 h, t1, s1, ⟨len1, c1.length⟩⟩,
          ⟨h, cachedPathFor mgr.cacheDir p2 h, t2, s2, ⟨len2, c2.length⟩⟩, ?_, ?_, ?_, ?_⟩
  · show lookupA (insertA _ p2 _) p1 = _
    rw [lookupA_insertA_ne _ _ (fun hq => hne hq.symm)]
    exact lookupA_insertA_self _ _ _
  · exact lookupA_insertA_self _ _ _
  · show pathJoin mgr.cacheDir (h ++ "." ++ extLast p1) = pathJoin mgr.cacheDir (h ++ "." ++ extLast p2)
    rw [hext]
  · intro mgr3 fs3 hinv
    have he1 : lookupA (saveToCache (saveToCache mgr fs p1 h len1 c1 s1 t1).1
        (saveToCache mgr fs p1 h len1 c1 s1 t1).2 p2 h len2 c2 s2 t2).1.manifest.entries p1
        = some ⟨h, cachedPathFor mgr.cacheDir p1 h, t1, s1, ⟨len1, c1.length⟩⟩ := by
      show lookupA (insertA _ p2 _) p1 = _
      rw [lookupA_insertA_ne _ _ (fun hq => hne hq.symm)]
      exact lookupA_insertA_self _ _ _
    rw [invalidateCache_found _ _ _ _ he1] at hinv
    cases hinv
    constructor
    · show lookupA (eraseA _ (cachedPathFor mgr.cacheDir p1 h)) (cachedPathFor mgr.cacheDir p2 h) = none
      have : cachedPathFor mgr.cacheDir p2 h = cachedPathFor mgr.cacheDir p1 h := by
        unfold cachedPathFor
        rw [hext]
      rw [this]
      exact lookupA_eraseA_self _ _
    · show lookupA (eraseA _ p1) p2 = _
      rw [lookupA_eraseA_ne _ hne]
      exact lookupA_insertA_self _ _ _

/-- Witness for C9 at concrete paths `a.css` and `b.css` sharing hash
`h1` and extension `css`. -/
theorem claim_C9_witness :
    ("b.css" ≠ "a.css" ∧ extLast "a.css" = "css" ∧ extLast "b.css" = "css") ∧
    ∃ e1 e2,
      lookupA (saveToCache (saveToCache (newManager "cd") emptyCacheFS "a.css" "h1" 9 [1] none 0).1
          (saveToCache (newManager "cd") emptyCacheFS "a.css" "h1" 9 [1] none 0).2
          "b.css" "h1" 9 [2] none 1).1.manifest.entries "a.css" = some e1 ∧
      lookupA (saveToCache (saveToCache (newManager "cd") emptyCacheFS "a.css" "h1" 9 [1] none 0).1
          (saveToCache (newManager "cd") emptyCacheFS "a.css" "h1" 9 [1] none 0).2
          "b.css" "h1" 9 [2] none 1).1.manifest.entries "b.css" = some e2 ∧
      e1.compressedPath = e2.compressedPath ∧
      ∀ mgr3 fs3,
        invalidateCache (saveToCache (saveToCache (newManager "cd") emptyCacheFS "a.css" "h1" 9 [1] none 0).1
            (saveToCache (newManager "cd") emptyCacheFS "a.css" "h1" 9 [1] none 0).2
            "b.css" "h1" 9 [2] none 1).1
          (saveToCache (saveToCache (newManager "cd") emptyCacheFS "a.css" "h1" 9 [1] none 0).1
            (saveToCache (newManager "cd") emptyCacheFS "a.css" "h1" 9 [1] none 0).2
            "b.css" "h1" 9 [2] none 1).2
          (some "a.css") = .ok (mgr3, fs3) →
        lookupA fs3.artifacts e2.compressedPath = none ∧
        lookupA mgr3.manifest.entries "b.css" = some e2 :=
  ⟨⟨by decide, rfl, rfl⟩,
   claim_C9_shared_artifact (newManager "cd") emptyCacheFS "a.css" "b.css" "h1"
     9 9 [1] [2] none none 0 1 (by decide) rfl⟩

/-- **C10**: `invalidateCache` requires an existing manifest entry.  With
an entry for the (possibly defaulted) key it removes the entry and
best-effort deletes its artifact; with no entry — including the
no-argument call the public interface permits, whose key coerces to the
string `"undefined"` — it throws (`TypeError` on reading `.compressedPath`
of `undefined`) instead of being a no-op. -/
theorem claim_C10_invalidate_precondition (mgr : Manager) (fs : CacheFS)
    (arg : Option String) :
    (∀ e, lookupA mgr.manifest.entries (arg.getD "undefined") = some e →
      invalidateCache mgr fs arg =
        .ok ({ mgr with manifest :=
                 { mgr.manifest with entries := eraseA mgr.manifest.entries (arg.getD "undefined") } },
             { fs with artifacts := eraseA fs.artifacts e.compressedPath })) ∧
    (lookupA mgr.manifest.entries (arg.getD "undefined") = none →
      invalidateCache mgr fs arg = .error ()) := by
  constructor
  · intro e he
    cases arg with
    | none =>
      unfold invalidateCache
      simp only [Option.getD] at he
      simp [he]
    | some p =>
      simp only [Option.getD] at he
      exact invalidateCache_found mgr fs p e he
  · exact invalidateCache_error mgr fs arg

/-- Witness for C10: invalidating an existing entry succeeds and removes
it; the no-argument call on a manager without an `"undefined"` entry
throws. -/
theorem claim_C10_witness :
    invalidateCache
        (Manager.mk "cd" ⟨"1", [("a.css", ⟨"h1", "cd/h1.css", 0, none, ⟨9, 5⟩⟩)]⟩)
        (CacheFS.mk true (.stored emptyManifest) [("cd/h1.css", [1, 2])])
        (some "a.css")
      = .ok (Manager.mk "cd" ⟨"1", []⟩, CacheFS.mk true (.stored emptyManifest) []) ∧
    invalidateCache
        (Manager.mk "cd" ⟨"1", [("a.css", ⟨"h1", "cd/h1.css", 0, none, ⟨9, 5⟩⟩)]⟩)
        (CacheFS.mk true (.stored emptyManifest) [("cd/h1.css", [1, 2])])
        none
      = .error () := by
  constructor
  · have := (claim_C10_invalidate_precondition
      (Manager.mk "cd" ⟨"1", [("a.css", ⟨"h1", "cd/h1.css", 0, none, ⟨9, 5⟩⟩)]⟩)
      (CacheFS.mk true (.stored emptyManifest) [("cd/h1.css", [1, 2])])
      (some "a.css")).1 ⟨"h1", "cd/h1.css", 0, none, ⟨9, 5⟩⟩ rfl
    simpa [eraseA] using this
  · exact (claim_C10_invalidate_precondition
      (Manager.mk "cd" ⟨"1", [("a.css", ⟨"h1", "cd/h1.css", 0, none, ⟨9, 5⟩⟩)]⟩)
      (CacheFS.mk true (.stored emptyManifest) [("cd/h1.css", [1, 2])])
      none).2 rfl

/-! ## The processing pipeline (src/index.ts)

The integration closes over a merged `compressionConfig` object, mutable
counters, and the cache manager; `processFile` dispatches on extension
regexes, calls the external codec, and accepts the result iff its JS
`.length` is below the original's byte size.  The external codecs (sharp,
html-minifier-terser, terser, svgo, csso) are opaque collaborators,
modelled as adapter functions with the shapes of their results. -/

/-- The `configAliases` table: alias extensions per canonical config key. -/
def configAliases : List (String × List String) :=
  [("js", ["mjs", "cjs"]), ("jpeg", ["jpg"]), ("tiff", ["tif"])]

/-- `getAliasForExtension`: the first config key whose alias set contains
the extension. -/
def getAliasForExtension (extension : String) : Option String :=
  (configAliases.find? (fun kv => kv.2.contains extension)).map Prod.fst

/-- The merged `compressionConfig` object (`{...defaultConfig, ...options, ...}`)
as seen by `getUsedConfig`: its keys (format names plus `cache`) with
their settings values, and the `cache?.enabled` flag the hooks branch on. -/
structure CompressionConfig where
  keys : List (String × Json)
  cacheEnabled : Bool

/-- Lowercase a string (model of `toLowerCase`, structural so concrete
witnesses evaluate). -/
def lowerStr (s : String) : String := String.mk (s.toList.map Char.toLower)

/-- `filePath.toLowerCase().split('.').pop() ?? ''`. -/
def extOfLower (p : String) : String := extLast (lowerStr p)

/-- `getUsedConfig(filePath)`: extension key if present in the merged
config, else the alias table; `null` if neither, otherwise
`{ config: compressionConfig[key], format: key }` (a key reached through
an alias may be absent from the config, making `config` undefined). -/
def getUsedConfig (cfg : CompressionConfig) (filePath : String) : UsedFormatConfig :=
  let fileExtension := extOfLower filePath
  let configKey : Option String :=
    if (lookupA cfg.keys fileExtension).isSome then some fileExtension
    else getAliasForExtension fileExtension
  match configKey with
  | none => none
  | some key => some ⟨lookupA cfg.keys key, key⟩

/-- Suffix test on strings (structural). -/
def endsWithStr (p suf : String) : Bool :=
  decide (suf.toList.length ≤ p.toList.length) &&
    (p.toList.drop (p.toList.length - suf.toList.length) == suf.toList)

/-- Case-insensitive test for a `\.ext$` regex alternative. -/
def matchesExt (p ext : String) : Bool := endsWithStr (lowerStr p) ("." ++ ext)

/-- The `/\.(jpe?g|png|webp|tiff?|avif|heif)$/i` dispatch test. -/
def isImagePath (p : String) : Bool :=
  ["jpg", "jpeg", "png", "webp", "tif", "tiff", "avif", "heif"].any (matchesExt p)

/-- The `/\.(html|htm)$/i` dispatch test. -/
def isHtmlPath (p : String) : Bool := ["html", "htm"].any (matchesExt p)

/-- The `/\.(js|mjs)$/i` dispatch test. -/
def isJsPath (p : String) : Bool := ["js", "mjs"].any (matchesExt p)

/-- The `/\.(svg)$/i` dispatch test. -/
def isSvgPath (p : String) : Bool := matchesExt p "svg"

/-- The `/\.(css|scss|sass|less)$/i` dispatch test. -/
def isCssPath (p : String) : Bool := ["css", "scss", "sass", "less"].any (matchesExt p)

/-- True when the path matches one of `processFile`'s five dispatch
patterns (otherwise `processFile` takes the final `Skipped` branch). -/
def matchesAnyDispatch (p : String) : Bool :=
  isImagePath p || isHtmlPath p || isJsPath p || isSvgPath p || isCssPath p

/-- The `KnowFailReason` string constants. -/
def KnowFailReason.BiggerSize : String := "compressed size is greater than original size"

/-- Failure reason for an unrecognized sniffed image format. -/
def KnowFailReason.UnknowMediaFormat : String := "unknown media format"

/-- Failure reason when a minifier produced no output. -/
def KnowFailReason.NoOutput : String := "compression produced no output"

/-- Failure reason for paths matching no dispatch pattern. -/
def KnowFailReason.Skipped : String := "Skipped"

/-- A codec result value (`string | Buffer`): `bytes` is what
`writeFileSync` puts on disk (the UTF-8 encoding for strings), `jsLength`
is the value of its `.length` property — `bytes.length` for a `Buffer`,
but the UTF-16 code-unit count for a string, which can be smaller than
the byte count. -/
structure CodecOut where
  bytes : List Nat
  jsLength : Nat

/-- Result of the sharp image pipeline: a buffer, an unsupported sniffed
format, or a thrown error. -/
inductive ImageResult where
  | ok (out : CodecOut) : ImageResult
  | unknownFormat : ImageResult
  | err (msg : String) : ImageResult

/-- Result of `html-minifier-terser`'s `minify`: a string or a thrown
error. -/
inductive HtmlResult where
  | ok (out : CodecOut) : HtmlResult
  | err (msg : String) : HtmlResult

/-- Result shape of terser / svgo / csso: output, a falsy
`.code`/`.data`/`.css`, or a thrown error. -/
inductive MaybeOut where
  | ok (out : CodecOut) : MaybeOut
  | empty : MaybeOut
  | err (msg : String) : MaybeOut

/-- The external compression collaborators, one per dispatch branch. -/
structure Adapters where
  image : List Nat → ImageResult
  html : List Nat → HtmlResult
  js : List Nat → MaybeOut
  svg : List Nat → MaybeOut
  css : List Nat → MaybeOut

/-- The record `processFile` resolves with (`reason` is `""` when
`processed` is true, where the source has no `reason` field). -/
structure ProcessResult where
  processed : Bool
  originalSize : Nat
  newSize : Nat
  reason : String
  usedConfig : UsedFormatConfig

/-- Core of `processFile` on the file's current content: the result
record plus the bytes written over the file, if any.
`handle` is `handleCompressedResult`: accept iff `.length` (JS length!)
is strictly below the original byte size, and write the content's bytes;
`handleError` is the inner catch of the js/svg branches (note its
`newSize: originalSize`); other codec errors reach the outer catch, whose
reason is `String(error)`. -/
def processCore (cfg : CompressionConfig) (A : Adapters) (content : List Nat)
    (filePath : String) : ProcessResult × Option (List Nat) :=
  let originalSize := content.length
  let usedConfig := getUsedConfig cfg filePath
  let handle : CodecOut → ProcessResult × Option (List Nat) := fun out =>
    if out.jsLength < originalSize then
      (⟨true, originalSize, out.bytes.length, "", usedConfig⟩, some out.bytes)
    else
      (⟨false, originalSize, 0, KnowFailReason.BiggerSize, usedConfig⟩, none)
  let fail : String → ProcessResult × Option (List Nat) := fun reason =>
    (⟨false, originalSize, 0, reason, usedConfig⟩, none)
  let handleError : String → ProcessResult × Option (List Nat) := fun processType =>
    (⟨false, originalSize, originalSize, lowerStr processType ++ " failed", usedConfig⟩, none)
  if isImagePath filePath then
    match A.image content with
    | .ok out => handle out
    | .unknownFormat => fail KnowFailReason.UnknowMediaFormat
    | .err m => fail m
  else if isHtmlPath filePath then
    match A.html content with
    | .ok out => handle out
    | .err m => fail m
  else if isJsPath filePath then
    match A.js content with
    | .ok out => handle out
    | .empty => fail KnowFailReason.NoOutput
    | .err _ => handleError "JavaScript minification"
  else if isSvgPath filePath then
    match A.svg content with
    | .ok out => handle out
    | .empty => fail KnowFailReason.NoOutput
    | .err _ => handleError "SVG optimization"
  else if isCssPath filePath then
    match A.css content with
    | .ok out => handle out
    | .empty => fail KnowFailReason.NoOutput
    | .err m => fail m
  else
    fail KnowFailReason.Skipped

/-- `processFile`: read the candidate, run the core, apply the write (if
any) to the build-output tree. -/
def processFile (cfg : CompressionConfig) (A : Adapters)
    (dist : List (String × List Nat)) (filePath : String) :
    ProcessResult × List (String × List Nat) :=
  let content := (lookupA dist filePath).getD []
  match processCore cfg A content filePath with
  | (r, some b) => (r, insertA dist filePath b)
  | (r, none) => (r, dist)

/-- What the `astro:build:done` loop did with one candidate. -/
inductive Outcome where
  | hit : Outcome
  | proc : Outcome
  | biggerCached : Outcome
  | skip : Outcome

/-- State threaded through a run: the build output tree, the cache
manager and cache directory, the integration's closed-over counters, and
a clock supplying `Date.now()` values. -/
structure PipelineState where
  dist : List (String × List Nat)
  mgr : Manager
  cfs : CacheFS
  originalSizeTotal : Nat
  newSizeTotal : Nat
  processedFiles : Nat
  skippedFiles : Nat
  cacheHits : Nat
  clock : Nat

/-- One candidate of the `astro:build:done` loop with caching enabled:
hash the current bytes, consult the cache (cache hit: copy the cached
bytes over the candidate and bump the totals and hit counter), otherwise
`processFile`; a processed result and a `BiggerSize` rejection both
re-read the candidate and `saveToCache` it and count as processed, every
other failure counts as skipped. -/
def stepEnabled (cfg : CompressionConfig) (A : Adapters) (hash : List Nat → String)
    (s : PipelineState) (candidate : String) : PipelineState × Outcome :=
  let originalContent := (lookupA s.dist candidate).getD []
  let sourceOriginalHash := hash originalContent
  let usedConfig := getUsedConfig cfg candidate
  match getCachedFile s.mgr s.cfs candidate sourceOriginalHash usedConfig with
  | (some entry, mgr2, cfs2) =>
    let compressedContent := (lookupA cfs2.artifacts entry.compressedPath).getD []
    ({ s with
        dist := insertA s.dist candidate compressedContent,
        mgr := mgr2,
        cfs := cfs2,
        originalSizeTotal := s.originalSizeTotal + entry.size.original,
        newSizeTotal := s.newSizeTotal + entry.size.compressed,
        cacheHits := s.cacheHits + 1 }, .hit)
  | (none, mgr2, cfs2) =>
    let pr := processFile cfg A s.dist candidate
    if pr.1.processed then
      let compressedContent := (lookupA pr.2 candidate).getD []
      let save := saveToCache mgr2 cfs2 candidate sourceOriginalHash
        originalContent.length compressedContent pr.1.usedConfig s.clock
      ({ s with
          dist := pr.2,
          mgr := save.1,
          cfs := save.2,
          originalSizeTotal := s.originalSizeTotal + pr.1.originalSize,
          newSizeTotal := s.newSizeTotal + pr.1.newSize,
          processedFiles := s.processedFiles + 1,
          clock := s.clock + 1 }, .proc)
    else if pr.1.reason = KnowFailReason.BiggerSize then
      let compressedContent := (lookupA pr.2 candidate).getD []
      let save := saveToCache mgr2 cfs2 candidate sourceOriginalHash
        originalContent.length compressedContent pr.1.usedConfig s.clock
      ({ s with
          dist := pr.2,
          mgr := save.1,
          cfs := save.2,
          processedFiles := s.processedFiles + 1,
          clock := s.clock + 1 }, .biggerCached)
    else
      ({ s with dist := pr.2, mgr := mgr2, cfs := cfs2, skippedFiles := s.skippedFiles + 1 },
       .skip)

/-- One candidate of the `astro:build:done` loop with caching disabled:
`processFile` only, counting processed or skipped. -/
def stepDisabled (cfg : CompressionConfig) (A : Adapters)
    (s : PipelineState) (candidate : String) : PipelineState × Outcome :=
  let pr := processFile cfg A s.dist candidate
  if pr.1.processed then
    ({ s with
        dist := pr.2,
        originalSizeTotal := s.originalSizeTotal + pr.1.originalSize,
        newSizeTotal := s.newSizeTotal + pr.1.newSize,
        processedFiles := s.processedFiles + 1 }, .proc)
  else
    ({ s with dist := pr.2, skippedFiles := s.skippedFiles + 1 }, .skip)

/-- The candidate loop, in walker order, together with each candidate's
outcome. -/
def runCandidates (cfg : CompressionConfig) (A : Adapters) (hash : List Nat → String) :
    List String → PipelineState → PipelineState × List Outcome
  | [], s => (s, [])
  | c :: rest, s =>
    let st := if cfg.cacheEnabled then stepEnabled cfg A hash s c else stepDisabled cfg A s c
    let r := runCandidates cfg A hash rest st.1
    (r.1, st.2 :: r.2)

/-- The `astro:build:done` hook over a candidate list: run the loop, then
persist the manifest once (only when caching is enabled). -/
def buildDone (cfg : CompressionConfig) (A : Adapters) (hash : List Nat → String)
    (candidates : List String) (s : PipelineState) : PipelineState × List Outcome :=
  let r := runCandidates cfg A hash candidates s
  if cfg.cacheEnabled then
    ({ r.1 with cfs := saveManifest r.1.mgr r.1.cfs }, r.2)
  else r

/-- The `astro:config:done` hook: construct and init the cache manager
only when caching is enabled (when disabled the manager is never
constructed; the fresh unused value returned here models that). -/
def configDone (cfg : CompressionConfig) (cacheDir : String) (cfs : CacheFS) :
    Manager × CacheFS :=
  if cfg.cacheEnabled then initManager (newManager cacheDir) cfs
  else (newManager cacheDir, cfs)

/-- A whole run: `astro:config:done` followed by `astro:build:done`, with
all counters starting at zero (a fresh integration instance). -/
def fullRun (cfg : CompressionConfig) (A : Adapters) (hash : List Nat → String)
    (cacheDir : String) (candidates : List String)
    (dist : List (String × List Nat)) (cfs : CacheFS) : PipelineState × List Outcome :=
  let ic := configDone cfg cacheDir cfs
  buildDone cfg A hash candidates ⟨dist, ic.1, ic.2, 0, 0, 0, 0, 0, 0⟩

/-! ## Shape lemmas for processFile -/

theorem processCore_shape (cfg : CompressionConfig) (A : Adapters) (content : List Nat)
    (p : String) :
    (processCore cfg A content p).1.usedConfig = getUsedConfig cfg p ∧
    (processCore cfg A content p).1.originalSize = content.length ∧
    ((processCore cfg A content p).1.processed = true →
      ∃ b, (processCore cfg A content p).2 = some b ∧
        (processCore cfg A content p).1.newSize = b.length) ∧
    ((processCore cfg A content p).1.processed = false →
      (processCore cfg A content p).2 = none) := by
  unfold processCore
  repeat' split
  all_goals dsimp only
  all_goals try split_ifs
  all_goals simp

theorem processFile_eq (cfg : CompressionConfig) (A : Adapters)
    (dist : List (String × List Nat)) (p : String) :
    processFile cfg A dist p =
      ((processCore cfg A ((lookupA dist p).getD []) p).1,
        match (processCore cfg A ((lookupA dist p).getD []) p).2 with
        | some b => insertA dist p b
        | none => dist) := by
  unfold processFile
  rcases hpc : processCore cfg A ((lookupA dist p).getD []) p with ⟨r, w⟩
  cases w <;> simp [hpc]

/-- A path matching none of the five dispatch patterns takes the final
`Skipped` branch of `processFile` unconditionally. -/
theorem processCore_noDispatch (cfg : CompressionConfig) (A : Adapters)
    (content : List Nat) (p : String) (h : matchesAnyDispatch p = false) :
    processCore cfg A content p =
      (⟨false, content.length, 0, KnowFailReason.Skipped, getUsedConfig cfg p⟩, none) := by
  simp only [matchesAnyDispatch, Bool.or_eq_false_iff] at h
  obtain ⟨⟨⟨⟨h1, h2⟩, h3⟩, h4⟩, h5⟩ := h
  unfold processCore
  simp [h1, h2, h3, h4, h5]

theorem stepDisabled_frame (cfg : CompressionConfig) (A : Adapters)
    (s : PipelineState) (c : String) :
    (stepDisabled cfg A s c).1.mgr = s.mgr ∧ (stepDisabled cfg A s c).1.cfs = s.cfs := by
  unfold stepDisabled
  dsimp only
  split <;> exact ⟨rfl, rfl⟩

theorem runCandidates_disabled_cfs (cfg : CompressionConfig) (A : Adapters)
    (hash : List Nat → String) (hdis : cfg.cacheEnabled = false)
    (cs : List String) : ∀ s : PipelineState, (runCandidates cfg A hash cs s).1.cfs = s.cfs := by
  induction cs with
  | nil => intro s; rfl
  | cons c rest ih =>
    intro s
    unfold runCandidates
    simp only [hdis, Bool.false_eq_true, if_false]
    rw [ih]
    exact (stepDisabled_frame cfg A s c).2

/-! ## Claims about the pipeline -/

/-- **C8**: with caching disabled the cache slice of the filesystem is
never touched — the directory is never created and no manifest (nor any
artifact) is ever written: `astro:config:done` skips manager construction
and `initialize`, the per-candidate loop only runs `processFile` on the
build output tree, and the final `saveManifest` is guarded by the same
flag. -/
theorem claim_C8_cache_disabled (cfg : CompressionConfig) (A : Adapters)
    (hash : List Nat → String) (cacheDir : String) (candidates : List String)
    (dist : List (String × List Nat)) (cfs : CacheFS)
    (hdis : cfg.cacheEnabled = false) :
    (fullRun cfg A hash cacheDir candidates dist cfs).1.cfs = cfs := by
  unfold fullRun configDone buildDone
  simp only [hdis, Bool.false_eq_true, if_false]
  exact runCandidates_disabled_cfs cfg A hash hdis candidates _

/-- Witness for C8: a concrete cache-disabled run over one candidate
leaves the pristine cache filesystem exactly as it was. -/
theorem claim_C8_witness :
    (CompressionConfig.mk [("css", Json.obj [])] false).cacheEnabled = false ∧
    (fullRun ⟨[("css", Json.obj [])], false⟩
        ⟨fun _ => .err "image", fun _ => .err "html", fun _ => .err "js",
          fun _ => .err "svg", fun _ => .ok ⟨[1], 1⟩⟩
        (fun _ => "h") "cd" ["a.css"] [("a.css", [1, 2, 3])] emptyCacheFS).1.cfs
      = emptyCacheFS :=
  ⟨rfl, claim_C8_cache_disabled _ _ _ _ _ _ _ rfl⟩

/-- **C4** (code-bug exhibit): `handleCompressedResult` compares the JS
`.length` of the codec result against the original byte size — the
vestigial `Buffer.isBuffer(compressedContent) ? .length : .length`
ternary makes both branches the same — but for string results `.length`
counts UTF-16 code units while `writeFileSync` writes the UTF-8
encoding.  Failing input: a 5-byte `a.html` whose minifier output is a
4-character string encoding to 12 bytes.  The code accepts it and
overwrites the file with 12 bytes (`newSize` 12 ≥ 5); the claim (and the
spec's no-regression rule) require the byte-length comparison to reject
it and leave the file byte-for-byte unchanged. -/
theorem claim_C4_failing_input :
    (processFile ⟨[("html", Json.obj [])], true⟩
        ⟨fun _ => .err "image", fun _ => .ok ⟨List.replicate 12 7, 4⟩,
          fun _ => .err "js", fun _ => .err "svg", fun _ => .err "css"⟩
        [("a.html", [1, 2, 3, 4, 5])] "a.html").1.processed = true ∧
    (processFile ⟨[("html", Json.obj [])], true⟩
        ⟨fun _ => .err "image", fun _ => .ok ⟨List.replicate 12 7, 4⟩,
          fun _ => .err "js", fun _ => .err "svg", fun _ => .err "css"⟩
        [("a.html", [1, 2, 3, 4, 5])] "a.html").1.newSize = 12 ∧
    (processFile ⟨[("html", Json.obj [])], true⟩
        ⟨fun _ => .err "image", fun _ => .ok ⟨List.replicate 12 7, 4⟩,
          fun _ => .err "js", fun _ => .err "svg", fun _ => .err "css"⟩
        [("a.html", [1, 2, 3, 4, 5])] "a.html").2
      = [("a.html", List.replicate 12 7)] ∧
    5 ≤ (List.replicate 12 7 : List Nat).length :=
  ⟨rfl, rfl, rfl, by decide⟩

/-- The merged default `compressionConfig` (defaultConfig.ts spread with
no user options), as `getUsedConfig` sees it.  Fractional compression
levels (9.0, 6.0) are integral and appear as their integer values. -/
def defaultMergedConfig : CompressionConfig :=
  ⟨[("cache", Json.obj [("enabled", Json.bool true),
      ("cacheDir", Json.str "node_modules/.astro/.gab-astro-compress")]),
    ("png", Json.obj [("compressionLevel", Json.num 9), ("palette", Json.bool true)]),
    ("jpeg", Json.obj [("mozjpeg", Json.bool true), ("trellisQuantisation", Json.bool true),
      ("overshootDeringing", Json.bool true), ("optimizeScans", Json.bool true)]),
    ("webp", Json.obj [("effort", Json.num 6)]),
    ("avif", Json.obj [("effort", Json.num 9), ("lossless", Json.bool true)]),
    ("heif", Json.obj [("effort", Json.num 9), ("lossless", Json.bool true)]),
    ("html", Json.obj [("collapseWhitespace", Json.bool true), ("removeComments", Json.bool true),
      ("minifyCSS", Json.bool true), ("minifyJS", Json.bool true),
      ("continueOnParseError", Json.bool true)]),
    ("js", Json.obj [("compress", Json.bool true), ("mangle", Json.bool true)]),
    ("svg", Json.obj [("multipass", Json.bool true)]),
    ("css", Json.obj [])],
   true⟩

/-- Adapters for the C6 counterexample: the CSS minifier shrinks its
input to two bytes; the other codecs are irrelevant. -/
def c6Adapters : Adapters :=
  ⟨fun _ => .err "image", fun _ => .err "html", fun _ => .err "js", fun _ => .err "svg",
   fun _ => .ok ⟨[1, 2], 2⟩⟩

/-- **C6** (counterexample): `processFile` dispatches on extension
regexes, not on the resolved format.  `a.scss` resolves to `none`
(`scss` is neither a key of the merged config nor an alias), yet it
matches the `/\.(css|scss|sass|less)$/i` pattern: the pipeline minifies
it, overwrites its bytes and counts it as processed — not "skipped with
nothing else done" as the claim states. -/
theorem claim_C6_counterexample :
    getUsedConfig defaultMergedConfig "a.scss" = none ∧
    (fullRun defaultMergedConfig c6Adapters (fun _ => "h") "cd"
        ["a.scss"] [("a.scss", [1, 2, 3, 4, 5, 6])] emptyCacheFS).1.processedFiles = 1 ∧
    (fullRun defaultMergedConfig c6Adapters (fun _ => "h") "cd"
        ["a.scss"] [("a.scss", [1, 2, 3, 4, 5, 6])] emptyCacheFS).1.skippedFiles = 0 ∧
    (fullRun defaultMergedConfig c6Adapters (fun _ => "h") "cd"
        ["a.scss"] [("a.scss", [1, 2, 3, 4, 5, 6])] emptyCacheFS).1.dist
      = [("a.scss", [1, 2])] :=
  ⟨rfl, rfl, rfl, rfl⟩

/-- **C6** (amended): a candidate matching *none* of `processFile`'s five
dispatch patterns is counted as skipped and left untouched, in both
caching modes (with no pre-existing cache entry in the enabled mode);
format resolution to `none` alone does not prevent compression for
extensions (like `.scss`, `.sass`, `.less`, `.htm`) that match a
dispatch pattern without resolving to a config. -/
theorem claim_C6_amended (cfg : CompressionConfig) (A : Adapters) (hash : List Nat → String)
    (s : PipelineState) (p : String) (h : matchesAnyDispatch p = false) :
    (processFile cfg A s.dist p).1.processed = false ∧
    (processFile cfg A s.dist p).1.reason = KnowFailReason.Skipped ∧
    (processFile cfg A s.dist p).2 = s.dist ∧
    stepDisabled cfg A s p = ({ s with skippedFiles := s.skippedFiles + 1 }, .skip) ∧
    (lookupA s.mgr.manifest.entries p = none →
      stepEnabled cfg A hash s p = ({ s with skippedFiles := s.skippedFiles + 1 }, .skip)) := by
  have hpf : processFile cfg A s.dist p =
      (⟨false, ((lookupA s.dist p).getD []).length, 0, KnowFailReason.Skipped,
        getUsedConfig cfg p⟩, s.dist) := by
    rw [processFile_eq, processCore_noDispatch cfg A _ p h]
  refine ⟨by rw [hpf], by rw [hpf], by rw [hpf], ?_, ?_⟩
  · simp [stepDisabled, hpf]
  · intro hne
    have hgc := getCachedFile_noEntry s.mgr s.cfs p
      (hash ((lookupA s.dist p).getD [])) (getUsedConfig cfg p) hne
    simp only [stepEnabled, hgc, hpf]
    have : KnowFailReason.Skipped ≠ KnowFailReason.BiggerSize := by decide
    simp [this]

/-- Witness for the amended C6: a `notes.txt` candidate is skipped and
untouched in both modes. -/
theorem claim_C6_amended_witness :
    matchesAnyDispatch "notes.txt" = false ∧
    ((processFile defaultMergedConfig c6Adapters
        (PipelineState.mk [("notes.txt", [3, 4])] (newManager "cd") emptyCacheFS
          0 0 0 0 0 0).dist "notes.txt").1.processed = false ∧
      (processFile defaultMergedConfig c6Adapters
        (PipelineState.mk [("notes.txt", [3, 4])] (newManager "cd") emptyCacheFS
          0 0 0 0 0 0).dist "notes.txt").1.reason = KnowFailReason.Skipped ∧
      (processFile defaultMergedConfig c6Adapters
        (PipelineState.mk [("notes.txt", [3, 4])] (newManager "cd") emptyCacheFS
          0 0 0 0 0 0).dist "notes.txt").2
        = (PipelineState.mk [("notes.txt", [3, 4])] (newManager "cd") emptyCacheFS
          0 0 0 0 0 0).dist ∧
      stepDisabled defaultMergedConfig c6Adapters
          (PipelineState.mk [("notes.txt", [3, 4])] (newManager "cd") emptyCacheFS
            0 0 0 0 0 0) "notes.txt"
        = ({ PipelineState.mk [("notes.txt", [3, 4])] (newManager "cd") emptyCacheFS
              0 0 0 0 0 0 with skippedFiles := 0 + 1 }, .skip) ∧
      (lookupA (PipelineState.mk [("notes.txt", [3, 4])] (newManager "cd") emptyCacheFS
          0 0 0 0 0 0).mgr.manifest.entries "notes.txt" = none →
        stepEnabled defaultMergedConfig c6Adapters (fun _ => "h")
            (PipelineState.mk [("notes.txt", [3, 4])] (newManager "cd") emptyCacheFS
              0 0 0 0 0 0) "notes.txt"
          = ({ PipelineState.mk [("notes.txt", [3, 4])] (newManager "cd") emptyCacheFS
                0 0 0 0 0 0 with skippedFiles := 0 + 1 }, .skip))) :=
  ⟨rfl, claim_C6_amended defaultMergedConfig c6Adapters (fun _ => "h")
    (PipelineState.mk [("notes.txt", [3, 4])] (newManager "cd") emptyCacheFS 0 0 0 0 0 0)
    "notes.txt" rfl⟩

/-- Adapters for the C5 exhibits: CSS minification throws on the content
`[9, 9]` (an unrecoverable exception, reported through the outer catch)
and otherwise returns output exactly as long as its input (so the result
is never smaller — a `BiggerSize` rejection). -/
def c5Adapters : Adapters :=
  ⟨fun _ => .err "image", fun _ => .err "html", fun _ => .err "js", fun _ => .err "svg",
   fun content => if content == [9, 9] then .err "boom" else .ok ⟨content, content.length⟩⟩

/-- Config for the C5 exhibits: caching enabled, `css` configured. -/
def c5Config : CompressionConfig := ⟨[("css", Json.obj [])], true⟩

/-- The C5 run: two candidates; `a.css` makes the adapter throw, `b.css`
is rejected as not smaller. -/
def c5Run : PipelineState × List Outcome :=
  fullRun c5Config c5Adapters (fun b => "h" ++ toString b.length) "cd"
    ["a.css", "b.css"] [("a.css", [9, 9]), ("b.css", [1, 2, 3])] emptyCacheFS

/-- **C5** (counterexample): the claim says every rejected attempt is
counted as skipped and, with caching enabled, persists the original
bytes as the cache entry.  In the concrete run: the exception-rejected
`a.css` is counted as skipped but gets *no* cache entry, and the
not-smaller `b.css` gets a cache entry but is counted as *processed*
(`processedFiles = 1`, `skippedFiles = 1`, not 2). -/
theorem claim_C5_counterexample :
    c5Run.2 = [Outcome.skip, Outcome.biggerCached] ∧
    c5Run.1.skippedFiles = 1 ∧
    c5Run.1.processedFiles = 1 ∧
    lookupA c5Run.1.mgr.manifest.entries "a.css" = none ∧
    (lookupA c5Run.1.mgr.manifest.entries "b.css").isSome = true :=
  ⟨rfl, rfl, rfl, rfl, rfl⟩

/-- **C5** (amended): in a caching-enabled run (no pre-existing entry for
the candidate), a rejection because the result was not smaller
(`BiggerSize`) leaves the file untouched, persists the *original* bytes
as the cache entry for the path, and is counted as **processed**; every
other rejection (adapter-reported failure, no output, or exception) is
counted as skipped and persists nothing. -/
theorem claim_C5_amended (cfg : CompressionConfig) (A : Adapters) (hash : List Nat → String)
    (s : PipelineState) (c : String)
    (hne : lookupA s.mgr.manifest.entries c = none)
    (hnp : (processCore cfg A ((lookupA s.dist c).getD []) c).1.processed = false) :
    ((processCore cfg A ((lookupA s.dist c).getD []) c).1.reason = KnowFailReason.BiggerSize →
      (stepEnabled cfg A hash s c).2 = Outcome.biggerCached ∧
      (stepEnabled cfg A hash s c).1.processedFiles = s.processedFiles + 1 ∧
      (stepEnabled cfg A hash s c).1.skippedFiles = s.skippedFiles ∧
      (stepEnabled cfg A hash s c).1.dist = s.dist ∧
      lookupA (stepEnabled cfg A hash s c).1.cfs.artifacts
          (cachedPathFor s.mgr.cacheDir c (hash ((lookupA s.dist c).getD [])))
        = some ((lookupA s.dist c).getD []) ∧
      (lookupA (stepEnabled cfg A hash s c).1.mgr.manifest.entries c).isSome = true) ∧
    ((processCore cfg A ((lookupA s.dist c).getD []) c).1.reason ≠ KnowFailReason.BiggerSize →
      (stepEnabled cfg A hash s c).2 = Outcome.skip ∧
      (stepEnabled cfg A hash s c).1.skippedFiles = s.skippedFiles + 1 ∧
      (stepEnabled cfg A hash s c).1.processedFiles = s.processedFiles ∧
      (stepEnabled cfg A hash s c).1.mgr = s.mgr ∧
      (stepEnabled cfg A hash s c).1.cfs = s.cfs) := by
  have hwn := (processCore_shape cfg A ((lookupA s.dist c).getD []) c).2.2.2 hnp
  have hpf : processFile cfg A s.dist c =
      ((processCore cfg A ((lookupA s.dist c).getD []) c).1, s.dist) := by
    rw [processFile_eq, hwn]
  have hgc := getCachedFile_noEntry s.mgr s.cfs c
    (hash ((lookupA s.dist c).getD [])) (getUsedConfig cfg c) hne
  constructor
  · intro hreason
    simp only [stepEnabled, hgc, hpf, hnp, hreason]
    simp [saveToCache, cachedPathFor]
  · intro hreason
    simp only [stepEnabled, hgc, hpf, hnp]
    simp [hreason]

/-- Witness for the amended C5, at the C5 run's concrete inputs: the
not-smaller candidate `b.css` is cached and counted processed, the
exception-rejected `a.css` is skipped and nothing is written for it. -/
theorem claim_C5_amended_witness :
    ((stepEnabled c5Config c5Adapters (fun b => "h" ++ toString b.length)
        (PipelineState.mk [("b.css", [1, 2, 3])] (newManager "cd")
          (CacheFS.mk true (.stored emptyManifest) []) 0 0 0 0 0 0) "b.css").2
        = Outcome.biggerCached ∧
      (stepEnabled c5Config c5Adapters (fun b => "h" ++ toString b.length)
        (PipelineState.mk [("b.css", [1, 2, 3])] (newManager "cd")
          (CacheFS.mk true (.stored emptyManifest) []) 0 0 0 0 0 0) "b.css").1.processedFiles
        = 0 + 1 ∧
      lookupA (stepEnabled c5Config c5Adapters (fun b => "h" ++ toString b.length)
        (PipelineState.mk [("b.css", [1, 2, 3])] (newManager "cd")
          (CacheFS.mk true (.stored emptyManifest) []) 0 0 0 0 0 0) "b.css").1.cfs.artifacts
          (cachedPathFor "cd" "b.css" "h3")
        = some [1, 2, 3]) ∧
    ((stepEnabled c5Config c5Adapters (fun b => "h" ++ toString b.length)
        (PipelineState.mk [("a.css", [9, 9])] (newManager "cd")
          (CacheFS.mk true (.stored emptyManifest) []) 0 0 0 0 0 0) "a.css").2
        = Outcome.skip ∧
      (stepEnabled c5Config c5Adapters (fun b => "h" ++ toString b.length)
        (PipelineState.mk [("a.css", [9, 9])] (newManager "cd")
          (CacheFS.mk true (.stored emptyManifest) []) 0 0 0 0 0 0) "a.css").1.skippedFiles
        = 0 + 1 ∧
      (stepEnabled c5Config c5Adapters (fun b => "h" ++ toString b.length)
        (PipelineState.mk [("a.css", [9, 9])] (newManager "cd")
          (CacheFS.mk true (.stored emptyManifest) []) 0 0 0 0 0 0) "a.css").1.cfs
        = CacheFS.mk true (.stored emptyManifest) []) := by
  constructor
  · have hb := (claim_C5_amended c5Config c5Adapters (fun b => "h" ++ toString b.length)
      (PipelineState.mk [("b.css", [1, 2, 3])] (newManager "cd")
        (CacheFS.mk true (.stored emptyManifest) []) 0 0 0 0 0 0) "b.css" rfl rfl).1 rfl
    exact ⟨hb.1, hb.2.1, hb.2.2.2.2.1⟩
  · have ha := (claim_C5_amended c5Config c5Adapters (fun b => "h" ++ toString b.length)
      (PipelineState.mk [("a.css", [9, 9])] (newManager "cd")
        (CacheFS.mk true (.stored emptyManifest) []) 0 0 0 0 0 0) "a.css" rfl rfl).2
      (by decide)
    exact ⟨ha.1, ha.2.1, ha.2.2.2.2⟩

/-! ## Run analysis for idempotence (C1)

Derived, per-candidate views of one pipeline run over a pristine build
output `ov : String → List Nat` (the content the build put at each
candidate path). -/

/-- `processCore` on the pristine content of a candidate. -/
def coreOf (cfg : CompressionConfig) (A : Adapters) (ov : String → List Nat)
    (c : String) : ProcessResult × Option (List Nat) :=
  processCore cfg A (ov c) c

/-- Whether the candidate's compression is accepted (file overwritten). -/
def procQ (cfg : CompressionConfig) (A : Adapters) (ov : String → List Nat)
    (c : String) : Bool :=
  (coreOf cfg A ov c).1.processed

/-- Whether the candidate ends up with a cache entry: accepted, or
rejected as not smaller (both branches call `saveToCache`). -/
def cachedQ (cfg : CompressionConfig) (A : Adapters) (ov : String → List Nat)
    (c : String) : Bool :=
  (coreOf cfg A ov c).1.processed ||
    ((coreOf cfg A ov c).1.reason == KnowFailReason.BiggerSize)

/-- The candidate's bytes after one run: the accepted codec output, or
the pristine content when nothing was written. -/
def finalB (cfg : CompressionConfig) (A : Adapters) (ov : String → List Nat)
    (c : String) : List Nat :=
  ((coreOf cfg A ov c).2).getD (ov c)

/-- The artifact path `saveToCache` uses for the candidate. -/
def artPathOf (cacheDir : String) (hash : List Nat → String) (ov : String → List Nat)
    (c : String) : String :=
  cachedPathFor cacheDir c (hash (ov c))

/-- The build-output tree after one run: each accepted candidate
overwritten with its codec output, in candidate order. -/
def distFold (cfg : CompressionConfig) (A : Adapters) (ov : String → List Nat) :
    List String → List (String × List Nat) → List (String × List Nat)
  | [], d => d
  | c :: rest, d =>
    distFold cfg A ov rest
      (if procQ cfg A ov c then insertA d c (finalB cfg A ov c) else d)

/-! ### Step characterizations -/

theorem stepEnabled_hit (cfg : CompressionConfig) (A : Adapters) (hash : List Nat → String)
    (s : PipelineState) (c : String) (e : CacheEntry) (b : List Nat)
    (he : lookupA s.mgr.manifest.entries c = some e)
    (hh : e.sourceHash = hash ((lookupA s.dist c).getD []))
    (hset : stringifyUsed e.settings = stringifyUsed (getUsedConfig cfg c))
    (hart : lookupA s.cfs.artifacts e.compressedPath = some b) :
    stepEnabled cfg A hash s c =
      ({ s with
          dist := insertA s.dist c b,
          originalSizeTotal := s.originalSizeTotal + e.size.original,
          newSizeTotal := s.newSizeTotal + e.size.compressed,
          cacheHits := s.cacheHits + 1 }, .hit) := by
  have hgc := getCachedFile_hit s.mgr s.cfs c (hash ((lookupA s.dist c).getD []))
    (getUsedConfig cfg c) e b he hh hset hart
  simp only [stepEnabled, hgc, hart]
  simp [Option.getD]

theorem stepEnabled_miss_proc (cfg : CompressionConfig) (A : Adapters)
    (hash : List Nat → String) (s : PipelineState) (c : String) (b : List Nat)
    (hne : lookupA s.mgr.manifest.entries c = none)
    (hw : (processCore cfg A ((lookupA s.dist c).getD []) c).2 = some b)
    (hp : (processCore cfg A ((lookupA s.dist c).getD []) c).1.processed = true) :
    stepEnabled cfg A hash s c =
      ({ s with
          dist := insertA s.dist c b,
          mgr := (saveToCache s.mgr s.cfs c (hash ((lookupA s.dist c).getD []))
            ((lookupA s.dist c).getD []).length b (getUsedConfig cfg c) s.clock).1,
          cfs := (saveToCache s.mgr s.cfs c (hash ((lookupA s.dist c).getD []))
            ((lookupA s.dist c).getD []).length b (getUsedConfig cfg c) s.clock).2,
          originalSizeTotal := s.originalSizeTotal + ((lookupA s.dist c).getD []).length,
          newSizeTotal := s.newSizeTotal + b.length,
          processedFiles := s.processedFiles + 1,
          clock := s.clock + 1 }, .proc) := by
  have hshape := processCore_shape cfg A ((lookupA s.dist c).getD []) c
  have hnsz : (processCore cfg A ((lookupA s.dist c).getD []) c).1.newSize = b.length := by
    obtain ⟨b2, hw2, hn2⟩ := hshape.2.2.1 hp
    rw [hw2] at hw
    cases hw
    exact hn2
  have hgc := getCachedFile_noEntry s.mgr s.cfs c (hash ((lookupA s.dist c).getD []))
    (getUsedConfig cfg c) hne
  have hpf : processFile cfg A s.dist c =
      ((processCore cfg A ((lookupA s.dist c).getD []) c).1, insertA s.dist c b) := by
    rw [processFile_eq, hw]
  simp only [stepEnabled, hgc, hpf, hp]
  simp [hshape.1, hshape.2.1, hnsz]

theorem stepEnabled_miss_bigger (cfg : CompressionConfig) (A : Adapters)
    (hash : List Nat → String) (s : PipelineState) (c : String)
    (hne : lookupA s.mgr.manifest.entries c = none)
    (hp : (processCore cfg A ((lookupA s.dist c).getD []) c).1.processed = false)
    (hr : (processCore cfg A ((lookupA s.dist c).getD []) c).1.reason
        = KnowFailReason.BiggerSize) :
    stepEnabled cfg A hash s c =
      ({ s with
          mgr := (saveToCache s.mgr s.cfs c (hash ((lookupA s.dist c).getD []))
            ((lookupA s.dist c).getD []).length ((lookupA s.dist c).getD [])
            (getUsedConfig cfg c) s.clock).1,
          cfs := (saveToCache s.mgr s.cfs c (hash ((lookupA s.dist c).getD []))
            ((lookupA s.dist c).getD []).length ((lookupA s.dist c).getD [])
            (getUsedConfig cfg c) s.clock).2,
          processedFiles := s.processedFiles + 1,
          clock := s.clock + 1 }, .biggerCached) := by
  have hshape := processCore_shape cfg A ((lookupA s.dist c).getD []) c
  have hgc := getCachedFile_noEntry s.mgr s.cfs c (hash ((lookupA s.dist c).getD []))
    (getUsedConfig cfg c) hne
  have hpf : processFile cfg A s.dist c =
      ((processCore cfg A ((lookupA s.dist c).getD []) c).1, s.dist) := by
    rw [processFile_eq, hshape.2.2.2 hp]
  simp only [stepEnabled, hgc, hpf, hp, hr]
  simp [hshape.1]

theorem stepEnabled_miss_skip (cfg : CompressionConfig) (A : Adapters)
    (hash : List Nat → String) (s : PipelineState) (c : String)
    (hne : lookupA s.mgr.manifest.entries c = none)
    (hp : (processCore cfg A ((lookupA s.dist c).getD []) c).1.processed = false)
    (hr : (processCore cfg A ((lookupA s.dist c).getD []) c).1.reason
        ≠ KnowFailReason.BiggerSize) :
    stepEnabled cfg A hash s c = ({ s with skippedFiles := s.skippedFiles + 1 }, .skip) := by
  have hshape := processCore_shape cfg A ((lookupA s.dist c).getD []) c
  have hgc := getCachedFile_noEntry s.mgr s.cfs c (hash ((lookupA s.dist c).getD []))
    (getUsedConfig cfg c) hne
  have hpf : processFile cfg A s.dist c =
      ((processCore cfg A ((lookupA s.dist c).getD []) c).1, s.dist) := by
    rw [processFile_eq, hshape.2.2.2 hp]
  simp only [stepEnabled, hgc, hpf, hp]
  simp [hr]

theorem saveToCache_entries (mgr : Manager) (fs : CacheFS) (p h : String) (len : Nat)
    (content : List Nat) (settings : UsedFormatConfig) (now : Nat) :
    (saveToCache mgr fs p h len content settings now).1.manifest.entries =
      insertA mgr.manifest.entries p
        ⟨h, cachedPathFor mgr.cacheDir p h, now, settings, ⟨len, content.length⟩⟩ := rfl

theorem saveToCache_cacheDir (mgr : Manager) (fs : CacheFS) (p h : String) (len : Nat)
    (content : List Nat) (settings : UsedFormatConfig) (now : Nat) :
    (saveToCache mgr fs p h len content settings now).1.cacheDir = mgr.cacheDir := rfl

theorem saveToCache_artifacts (mgr : Manager) (fs : CacheFS) (p h : String) (len : Nat)
    (content : List Nat) (settings : UsedFormatConfig) (now : Nat) :
    (saveToCache mgr fs p h len content settings now).2.artifacts =
      insertA fs.artifacts (cachedPathFor mgr.cacheDir p h) content := rfl

theorem saveToCache_dirExists (mgr : Manager) (fs : CacheFS) (p h : String) (len : Nat)
    (content : List Nat) (settings : UsedFormatConfig) (now : Nat) :
    (saveToCache mgr fs p h len content settings now).2.dirExists = fs.dirExists := rfl

theorem saveToCache_manifestFile (mgr : Manager) (fs : CacheFS) (p h : String) (len : Nat)
    (content : List Nat) (settings : UsedFormatConfig) (now : Nat) :
    (saveToCache mgr fs p h len content settings now).2.manifestFile = fs.manifestFile := rfl

theorem runCandidates_cons_enabled (cfg : CompressionConfig) (A : Adapters)
    (hash : List Nat → String) (hen : cfg.cacheEnabled = true) (c : String)
    (R : List String) (s : PipelineState) :
    runCandidates cfg A hash (c :: R) s =
      ((runCandidates cfg A hash R (stepEnabled cfg A hash s c).1).1,
       (stepEnabled cfg A hash s c).2
         :: (runCandidates cfg A hash R (stepEnabled cfg A hash s c).1).2) := by
  have heq : runCandidates cfg A hash (c :: R) s =
      ((runCandidates cfg A hash R
          (if cfg.cacheEnabled then stepEnabled cfg A hash s c else stepDisabled cfg A s c).1).1,
        (if cfg.cacheEnabled then stepEnabled cfg A hash s c else stepDisabled cfg A s c).2
          :: (runCandidates cfg A hash R
            (if cfg.cacheEnabled then stepEnabled cfg A hash s c
              else stepDisabled cfg A s c).1).2) := rfl
  rw [heq, hen]
  simp

/-- Invariant of a caching-enabled first run over candidates whose paths
are fresh (no manifest entries) and pairwise share no artifact path: the
final build tree is `distFold`, and each manifest entry / artifact
records exactly that candidate's pristine hash, settings, artifact path
and final bytes. -/
theorem run1_spec (cfg : CompressionConfig) (A : Adapters) (hash : List Nat → String)
    (hen : cfg.cacheEnabled = true) (ov : String → List Nat) (cacheDir : String) :
    ∀ (R : List String) (s : PipelineState),
    R.Nodup →
    s.mgr.cacheDir = cacheDir →
    (∀ c ∈ R, lookupA s.dist c = some (ov c)) →
    (∀ c ∈ R, lookupA s.mgr.manifest.entries c = none) →
    R.Pairwise (fun a b => artPathOf cacheDir hash ov a ≠ artPathOf cacheDir hash ov b) →
    (runCandidates cfg A hash R s).1.dist = distFold cfg A ov R s.dist ∧
    (runCandidates cfg A hash R s).1.mgr.cacheDir = cacheDir ∧
    (runCandidates cfg A hash R s).1.cfs.dirExists = s.cfs.dirExists ∧
    (runCandidates cfg A hash R s).1.cfs.manifestFile = s.cfs.manifestFile ∧
    (∀ p, p ∉ R →
      lookupA (runCandidates cfg A hash R s).1.mgr.manifest.entries p
        = lookupA s.mgr.manifest.entries p) ∧
    (∀ c ∈ R, cachedQ cfg A ov c = true →
      ∃ t, lookupA (runCandidates cfg A hash R s).1.mgr.manifest.entries c
        = some ⟨hash (ov c), artPathOf cacheDir hash ov c, t, getUsedConfig cfg c,
                ⟨(ov c).length, (finalB cfg A ov c).length⟩⟩) ∧
    (∀ c ∈ R, cachedQ cfg A ov c = false →
      lookupA (runCandidates cfg A hash R s).1.mgr.manifest.entries c = none) ∧
    (∀ c ∈ R, cachedQ cfg A ov c = true →
      lookupA (runCandidates cfg A hash R s).1.cfs.artifacts (artPathOf cacheDir hash ov c)
        = some (finalB cfg A ov c)) ∧
    (∀ q, (∀ c ∈ R, cachedQ cfg A ov c = true → q ≠ artPathOf cacheDir hash ov c) →
      lookupA (runCandidates cfg A hash R s).1.cfs.artifacts q
        = lookupA s.cfs.artifacts q) := by
  intro R
  induction R with
  | nil =>
    intro s _ hcd _ _ _
    refine ⟨rfl, hcd, rfl, rfl, fun p _ => rfl, ?_, ?_, ?_, fun q _ => rfl⟩
    all_goals intro c hc
    all_goals cases hc
  | cons c R ih =>
    intro s hnd hcd hd hne hpw
    have hcmem : c ∉ R := (List.nodup_cons.mp hnd).1
    have hndR : R.Nodup := (List.nodup_cons.mp hnd).2
    have hdc : lookupA s.dist c = some (ov c) := hd c (List.mem_cons_self c R)
    have hget : (lookupA s.dist c).getD [] = ov c := by rw [hdc]; rfl
    have hnec : lookupA s.mgr.manifest.entries c = none := hne c (List.mem_cons_self c R)
    have hpwc : ∀ b ∈ R, artPathOf cacheDir hash ov c ≠ artPathOf cacheDir hash ov b :=
      (List.pairwise_cons.mp hpw).1
    have hpwR : R.Pairwise (fun a b => artPathOf cacheDir hash ov a ≠ artPathOf cacheDir hash ov b) :=
      (List.pairwise_cons.mp hpw).2
    have hshape := processCore_shape cfg A (ov c) c
    by_cases hproc : (processCore cfg A (ov c) c).1.processed = true
    · -- accepted: write + saveToCache, counted processed
      have hw : (processCore cfg A (ov c) c).2 = some (finalB cfg A ov c) := by
        obtain ⟨b2, hw2, _⟩ := hshape.2.2.1 hproc
        rw [finalB, coreOf, hw2]
        rfl
      have hcq : cachedQ cfg A ov c = true := by
        simp [cachedQ, coreOf, hproc]
      have hpq : procQ cfg A ov c = true := by
        simp [procQ, coreOf, hproc]
      have hstep := stepEnabled_miss_proc cfg A hash s c (finalB cfg A ov c) hnec
        (by rw [hget]; exact hw) (by rw [hget]; exact hproc)
      rw [hget] at hstep
      rw [runCandidates_cons_enabled cfg A hash hen c R s, hstep]
      dsimp only
      obtain ⟨ih1, ih2, ih3, ih4, ih5, ih6, ih7, ih8, ih9⟩ := ih
        ({ s with
            dist := insertA s.dist c (finalB cfg A ov c),
            mgr := (saveToCache s.mgr s.cfs c (hash (ov c)) (ov c).length
              (finalB cfg A ov c) (getUsedConfig cfg c) s.clock).1,
            cfs := (saveToCache s.mgr s.cfs c (hash (ov c)) (ov c).length
              (finalB cfg A ov c) (getUsedConfig cfg c) s.clock).2,
            originalSizeTotal := s.originalSizeTotal + (ov c).length,
            newSizeTotal := s.newSizeTotal + (finalB cfg A ov c).length,
            processedFiles := s.processedFiles + 1,
            clock := s.clock + 1 })
        hndR hcd
        (by
          intro x hx
          have hxc : x ≠ c := fun hxc => hcmem (hxc ▸ hx)
          dsimp only
          rw [lookupA_insertA_ne _ _ hxc]
          exact hd x (List.mem_cons_of_mem c hx))
        (by
          intro x hx
          have hxc : x ≠ c := fun hxc => hcmem (hxc ▸ hx)
          dsimp only
          rw [saveToCache_entries, lookupA_insertA_ne _ _ hxc]
          exact hne x (List.mem_cons_of_mem c hx))
        hpwR
      refine ⟨?_, ih2, ?_, ?_, ?_, ?_, ?_, ?_, ?_⟩
      · rw [ih1]
        simp [distFold, hpq]
      · rw [ih3]
        rfl
      · rw [ih4]
        rfl
      · intro p hp
        have hpR : p ∉ R := fun h2 => hp (List.mem_cons_of_mem c h2)
        have hpc : p ≠ c := fun h2 => hp (h2 ▸ List.mem_cons_self c R)
        rw [ih5 p hpR]
        dsimp only
        rw [saveToCache_entries, lookupA_insertA_ne _ _ hpc]
      · intro x hx hcx
        rcases List.mem_cons.mp hx with rfl | hxR
        · refine ⟨s.clock, ?_⟩
          rw [ih5 x hcmem]
          dsimp only
          rw [saveToCache_entries, hcd]
          exact lookupA_insertA_self _ _ _
        · exact ih6 x hxR hcx
      · intro x hx hcx
        rcases List.mem_cons.mp hx with rfl | hxR
        · rw [hcq] at hcx
          cases hcx
        · exact ih7 x hxR hcx
      · intro x hx hcx
        rcases List.mem_cons.mp hx with rfl | hxR
        · rw [ih9 (artPathOf cacheDir hash ov x) (fun z hz _ => hpwc z hz)]
          dsimp only
          rw [saveToCache_artifacts, hcd]
          exact lookupA_insertA_self _ _ _
        · exact ih8 x hxR hcx
      · intro q hq
        rw [ih9 q (fun z hz hcz => hq z (List.mem_cons_of_mem c hz) hcz)]
        have hqc : q ≠ cachedPathFor s.mgr.cacheDir c (hash (ov c)) := by
          rw [hcd]
          exact hq c (List.mem_cons_self c R) hcq
        dsimp only
        rw [saveToCache_artifacts, lookupA_insertA_ne _ _ hqc]
    · have hproc2 : (processCore cfg A (ov c) c).1.processed = false := by
        cases hb : (processCore cfg A (ov c) c).1.processed
        · rfl
        · exact absurd hb hproc
      have hwn : (processCore cfg A (ov c) c).2 = none := hshape.2.2.2 hproc2
      have hfb : finalB cfg A ov c = ov c := by
        rw [finalB, coreOf, hwn]
        rfl
      have hpq : procQ cfg A ov c = false := by
        simp [procQ, coreOf, hproc2]
      by_cases hrb : (processCore cfg A (ov c) c).1.reason = KnowFailReason.BiggerSize
      · -- not smaller: saveToCache the original bytes, counted processed
        have hcq : cachedQ cfg A ov c = true := by
          simp [cachedQ, coreOf, hrb]
        have hstep := stepEnabled_miss_bigger cfg A hash s c hnec
          (by rw [hget]; exact hproc2) (by rw [hget]; exact hrb)
        rw [hget] at hstep
        rw [runCandidates_cons_enabled cfg A hash hen c R s, hstep]
        dsimp only
        obtain ⟨ih1, ih2, ih3, ih4, ih5, ih6, ih7, ih8, ih9⟩ := ih
          ({ s with
              mgr := (saveToCache s.mgr s.cfs c (hash (ov c)) (ov c).length
                (ov c) (getUsedConfig cfg c) s.clock).1,
              cfs := (saveToCache s.mgr s.cfs c (hash (ov c)) (ov c).length
                (ov c) (getUsedConfig cfg c) s.clock).2,
              processedFiles := s.processedFiles + 1,
              clock := s.clock + 1 })
          hndR hcd
          (by
            intro x hx
            exact hd x (List.mem_cons_of_mem c hx))
          (by
            intro x hx
            have hxc : x ≠ c := fun hxc => hcmem (hxc ▸ hx)
            dsimp only
            rw [saveToCache_entries, lookupA_insertA_ne _ _ hxc]
            exact hne x (List.mem_cons_of_mem c hx))
          hpwR
        refine ⟨?_, ih2, ?_, ?_, ?_, ?_, ?_, ?_, ?_⟩
        · rw [ih1]
          simp [distFold, hpq]
        · rw [ih3]
          rfl
        · rw [ih4]
          rfl
        · intro p hp
          have hpR : p ∉ R := fun h2 => hp (List.mem_cons_of_mem c h2)
          have hpc : p ≠ c := fun h2 => hp (h2 ▸ List.mem_cons_self c R)
          rw [ih5 p hpR]
          dsimp only
          rw [saveToCache_entries, lookupA_insertA_ne _ _ hpc]
        · intro x hx hcx
          rcases List.mem_cons.mp hx with rfl | hxR
          · refine ⟨s.clock, ?_⟩
            rw [ih5 x hcmem]
            dsimp only
            rw [saveToCache_entries, hcd, hfb]
            exact lookupA_insertA_self _ _ _
          · exact ih6 x hxR hcx
        · intro x hx hcx
          rcases List.mem_cons.mp hx with rfl | hxR
          · rw [hcq] at hcx
            cases hcx
          · exact ih7 x hxR hcx
        · intro x hx hcx
          rcases List.mem_cons.mp hx with rfl | hxR
          · rw [ih9 (artPathOf cacheDir hash ov x) (fun z hz _ => hpwc z hz)]
            dsimp only
            rw [saveToCache_artifacts, hcd, hfb]
            exact lookupA_insertA_self _ _ _
          · exact ih8 x hxR hcx
        · intro q hq
          rw [ih9 q (fun z hz hcz => hq z (List.mem_cons_of_mem c hz) hcz)]
          have hqc : q ≠ cachedPathFor s.mgr.cacheDir c (hash (ov c)) := by
            rw [hcd]
            exact hq c (List.mem_cons_self c R) hcq
          dsimp only
          rw [saveToCache_artifacts, lookupA_insertA_ne _ _ hqc]
      · -- any other rejection: counted skipped, nothing cached
        have hcq : cachedQ cfg A ov c = false := by
          simp [cachedQ, coreOf, hproc2, hrb]
        have hstep := stepEnabled_miss_skip cfg A hash s c hnec
          (by rw [hget]; exact hproc2) (by rw [hget]; exact hrb)
        rw [runCandidates_cons_enabled cfg A hash hen c R s, hstep]
        dsimp only
        obtain ⟨ih1, ih2, ih3, ih4, ih5, ih6, ih7, ih8, ih9⟩ := ih
          ({ s with skippedFiles := s.skippedFiles + 1 })
          hndR hcd
          (fun x hx => hd x (List.mem_cons_of_mem c hx))
          (fun x hx => hne x (List.mem_cons_of_mem c hx))
          hpwR
        refine ⟨?_, ih2, ih3, ih4, ?_, ?_, ?_, ?_, ?_⟩
        · rw [ih1]
          simp [distFold, hpq]
        · intro p hp
          exact ih5 p (fun h2 => hp (List.mem_cons_of_mem c h2))
        · intro x hx hcx
          rcases List.mem_cons.mp hx with rfl | hxR
          · rw [hcq] at hcx
            cases hcx
          · exact ih6 x hxR hcx
        · intro x hx hcx
          rcases List.mem_cons.mp hx with rfl | hxR
          · rw [ih5 x hcmem]
            exact hnec
          · exact ih7 x hxR hcx
        · intro x hx hcx
          rcases List.mem_cons.mp hx with rfl | hxR
          · rw [hcq] at hcx
            cases hcx
          · exact ih8 x hxR hcx
        · intro q hq
          exact ih9 q (fun z hz hcz => hq z (List.mem_cons_of_mem c hz) hcz)

/-- A caching-enabled second run over the same pristine build output and
the manifest/artifacts the first run produced: every cached candidate is
a cache hit (its bytes are overwritten with the cached bytes and the hit
counter bumped), every uncached candidate skips again; the manager and
the cache filesystem are untouched and nothing is counted processed. -/
theorem run2_spec (cfg : CompressionConfig) (A : Adapters) (hash : List Nat → String)
    (hen : cfg.cacheEnabled = true) (ov : String → List Nat) (cacheDir : String) :
    ∀ (R : List String) (s : PipelineState),
    R.Nodup →
    s.mgr.cacheDir = cacheDir →
    (∀ c ∈ R, lookupA s.dist c = some (ov c)) →
    (∀ c ∈ R, cachedQ cfg A ov c = true →
      ∃ t, lookupA s.mgr.manifest.entries c
          = some ⟨hash (ov c), artPathOf cacheDir hash ov c, t, getUsedConfig cfg c,
                  ⟨(ov c).length, (finalB cfg A ov c).length⟩⟩) →
    (∀ c ∈ R, cachedQ cfg A ov c = true →
      lookupA s.cfs.artifacts (artPathOf cacheDir hash ov c) = some (finalB cfg A ov c)) →
    (∀ c ∈ R, cachedQ cfg A ov c = false → lookupA s.mgr.manifest.entries c = none) →
    (runCandidates cfg A hash R s).1.dist = distFold cfg A ov R s.dist ∧
    (runCandidates cfg A hash R s).1.mgr = s.mgr ∧
    (runCandidates cfg A hash R s).1.cfs = s.cfs ∧
    (runCandidates cfg A hash R s).1.processedFiles = s.processedFiles ∧
    (runCandidates cfg A hash R s).2
      = R.map (fun c => if cachedQ cfg A ov c then Outcome.hit else Outcome.skip) := by
  intro R
  induction R with
  | nil =>
    intro s _ _ _ _ _ _
    exact ⟨rfl, rfl, rfl, rfl, rfl⟩
  | cons c R ih =>
    intro s hnd hcd hd hentry hartifact hmiss
    have hcmem : c ∉ R := (List.nodup_cons.mp hnd).1
    have hndR : R.Nodup := (List.nodup_cons.mp hnd).2
    have hdc : lookupA s.dist c = some (ov c) := hd c (List.mem_cons_self c R)
    have hget : (lookupA s.dist c).getD [] = ov c := by rw [hdc]; rfl
    by_cases hcq : cachedQ cfg A ov c = true
    · -- cache hit
      obtain ⟨t, hec⟩ := hentry c (List.mem_cons_self c R) hcq
      have hart := hartifact c (List.mem_cons_self c R) hcq
      have hstep := stepEnabled_hit cfg A hash s c
        ⟨hash (ov c), artPathOf cacheDir hash ov c, t, getUsedConfig cfg c,
          ⟨(ov c).length, (finalB cfg A ov c).length⟩⟩
        (finalB cfg A ov c) hec (by rw [hget]) rfl hart
      rw [runCandidates_cons_enabled cfg A hash hen c R s, hstep]
      dsimp only
      obtain ⟨ih1, ih2, ih3, ih4, ih5⟩ := ih
        ({ s with
            dist := insertA s.dist c (finalB cfg A ov c),
            originalSizeTotal := s.originalSizeTotal + (ov c).length,
            newSizeTotal := s.newSizeTotal + (finalB cfg A ov c).length,
            cacheHits := s.cacheHits + 1 })
        hndR hcd
        (by
          intro x hx
          have hxc : x ≠ c := fun hxc => hcmem (hxc ▸ hx)
          dsimp only
          rw [lookupA_insertA_ne _ _ hxc]
          exact hd x (List.mem_cons_of_mem c hx))
        (fun x hx hcx => hentry x (List.mem_cons_of_mem c hx) hcx)
        (fun x hx hcx => hartifact x (List.mem_cons_of_mem c hx) hcx)
        (fun x hx hcx => hmiss x (List.mem_cons_of_mem c hx) hcx)
      refine ⟨?_, ih2, ih3, ih4, ?_⟩
      · rw [ih1]
        by_cases hpq : procQ cfg A ov c = true
        · simp [distFold, hpq]
        · have hpq2 : procQ cfg A ov c = false := by
            cases hb : procQ cfg A ov c
            · rfl
            · exact absurd hb hpq
          have hwn : (processCore cfg A (ov c) c).2 = none :=
            (processCore_shape cfg A (ov c) c).2.2.2 (by simpa [procQ, coreOf] using hpq2)
          have hfb : finalB cfg A ov c = ov c := by
            rw [finalB, coreOf, hwn]
            rfl
          rw [hfb, insertA_same s.dist hdc]
          simp [distFold, hpq2]
      · rw [ih5]
        simp [hcq]
    · -- miss again, skip again
      have hcq2 : cachedQ cfg A ov c = false := by
        cases hb : cachedQ cfg A ov c
        · rfl
        · exact absurd hb hcq
      have hflags : (processCore cfg A (ov c) c).1.processed = false ∧
          ((processCore cfg A (ov c) c).1.reason == KnowFailReason.BiggerSize) = false := by
        have := hcq2
        rw [cachedQ, coreOf] at this
        exact ⟨by
          cases hb : (processCore cfg A (ov c) c).1.processed
          · rfl
          · rw [hb] at this
            simp at this, by
          cases hb : ((processCore cfg A (ov c) c).1.reason == KnowFailReason.BiggerSize)
          · rfl
          · rw [hb] at this
            simp at this⟩
      have hrne : (processCore cfg A (ov c) c).1.reason ≠ KnowFailReason.BiggerSize := by
        intro heq
        have hb := hflags.2
        rw [heq] at hb
        simp at hb
      have hnec : lookupA s.mgr.manifest.entries c = none :=
        hmiss c (List.mem_cons_self c R) hcq2
      have hstep := stepEnabled_miss_skip cfg A hash s c hnec
        (by rw [hget]; exact hflags.1) (by rw [hget]; exact hrne)
      rw [runCandidates_cons_enabled cfg A hash hen c R s, hstep]
      dsimp only
      obtain ⟨ih1, ih2, ih3, ih4, ih5⟩ := ih
        ({ s with skippedFiles := s.skippedFiles + 1 })
        hndR hcd
        (fun x hx => hd x (List.mem_cons_of_mem c hx))
        (fun x hx hcx => hentry x (List.mem_cons_of_mem c hx) hcx)
        (fun x hx hcx => hartifact x (List.mem_cons_of_mem c hx) hcx)
        (fun x hx hcx => hmiss x (List.mem_cons_of_mem c hx) hcx)
      have hpq2 : procQ cfg A ov c = false := by
        simp [procQ, coreOf, hflags.1]
      refine ⟨?_, ih2, ih3, ih4, ?_⟩
      · rw [ih1]
        simp [distFold, hpq2]
      · rw [ih5]
        simp [hcq2]

theorem configDone_enabled_missing (cfg : CompressionConfig) (hen : cfg.cacheEnabled = true)
    (cacheDir : String) (fs : CacheFS) (hmf : fs.manifestFile = .missing) :
    configDone cfg cacheDir fs
      = (⟨cacheDir, emptyManifest⟩, ⟨true, .stored emptyManifest, fs.artifacts⟩) := by
  cases fs with
  | mk d mf art =>
    cases hmf
    simp [configDone, hen, initManager, loadManifest, newManager, saveManifest]

theorem configDone_enabled_stored (cfg : CompressionConfig) (hen : cfg.cacheEnabled = true)
    (cacheDir : String) (fs : CacheFS) (m : Manifest)
    (hmf : fs.manifestFile = .stored m) (hdir : fs.dirExists = true) :
    configDone cfg cacheDir fs = (⟨cacheDir, m⟩, fs) := by
  cases fs with
  | mk d mf art =>
    cases hmf
    cases hdir
    simp [configDone, hen, initManager, loadManifest, newManager]

theorem buildDone_enabled (cfg : CompressionConfig) (A : Adapters) (hash : List Nat → String)
    (hen : cfg.cacheEnabled = true) (candidates : List String) (s : PipelineState) :
    buildDone cfg A hash candidates s =
      ({ (runCandidates cfg A hash candidates s).1 with
          cfs := saveManifest (runCandidates cfg A hash candidates s).1.mgr
            (runCandidates cfg A hash candidates s).1.cfs },
       (runCandidates cfg A hash candidates s).2) := by
  unfold buildDone
  simp [hen]

/-- **C1**: idempotence of the pipeline over an unchanged build output.
Successive builds regenerate the output tree, so the second run sees the
same pristine candidate bytes `dist0` together with the cache state the
first run persisted.  Starting from a pristine cache, with caching
enabled, distinct candidates all present on disk, and pairwise-distinct
artifact paths (content-hash collision freedom): the second run leaves
the build tree, the entire cache filesystem (in particular every cached
artifact file and the manifest file) and the in-memory manifest exactly
as the first run left them, reports zero processed files, and reports a
cache hit for exactly the candidates the first run cached (every other
candidate is skipped again, so nothing is rewritten). -/
theorem claim_C1_idempotent (cfg : CompressionConfig) (A : Adapters)
    (hash : List Nat → String) (cacheDir : String) (candidates : List String)
    (dist0 : List (String × List Nat))
    (hen : cfg.cacheEnabled = true)
    (hnd : candidates.Nodup)
    (hpres : ∀ c ∈ candidates, lookupA dist0 c ≠ none)
    (hart : candidates.Pairwise (fun a b =>
      artPathOf cacheDir hash (fun c => (lookupA dist0 c).getD []) a
        ≠ artPathOf cacheDir hash (fun c => (lookupA dist0 c).getD []) b)) :
    (fullRun cfg A hash cacheDir candidates dist0
        (fullRun cfg A hash cacheDir candidates dist0 emptyCacheFS).1.cfs).1.dist
      = (fullRun cfg A hash cacheDir candidates dist0 emptyCacheFS).1.dist ∧
    (fullRun cfg A hash cacheDir candidates dist0
        (fullRun cfg A hash cacheDir candidates dist0 emptyCacheFS).1.cfs).1.cfs
      = (fullRun cfg A hash cacheDir candidates dist0 emptyCacheFS).1.cfs ∧
    (fullRun cfg A hash cacheDir candidates dist0
        (fullRun cfg A hash cacheDir candidates dist0 emptyCacheFS).1.cfs).1.mgr.manifest
      = (fullRun cfg A hash cacheDir candidates dist0 emptyCacheFS).1.mgr.manifest ∧
    (fullRun cfg A hash cacheDir candidates dist0
        (fullRun cfg A hash cacheDir candidates dist0 emptyCacheFS).1.cfs).1.processedFiles
      = 0 ∧
    (fullRun cfg A hash cacheDir candidates dist0
        (fullRun cfg A hash cacheDir candidates dist0 emptyCacheFS).1.cfs).2
      = candidates.map (fun c =>
          if (lookupA (fullRun cfg A hash cacheDir candidates dist0
              emptyCacheFS).1.mgr.manifest.entries c).isSome
          then Outcome.hit else Outcome.skip) := by
  have hd0 : ∀ c ∈ candidates, lookupA dist0 c = some ((lookupA dist0 c).getD []) := by
    intro c hc
    cases ho : lookupA dist0 c with
    | none => exact absurd ho (hpres c hc)
    | some v => rfl
  -- run 1
  have h1 : fullRun cfg A hash cacheDir candidates dist0 emptyCacheFS
      = buildDone cfg A hash candidates
          ⟨dist0, ⟨cacheDir, emptyManifest⟩, ⟨true, .stored emptyManifest, []⟩,
            0, 0, 0, 0, 0, 0⟩ := by
    unfold fullRun
    rw [configDone_enabled_missing cfg hen cacheDir emptyCacheFS rfl]
    rfl
  obtain ⟨r1dist, r1cd, r1dir, r1mf, r1frame, r1cached, r1uncached, r1art, r1artframe⟩ :=
    run1_spec cfg A hash hen (fun c => (lookupA dist0 c).getD []) cacheDir candidates
      ⟨dist0, ⟨cacheDir, emptyManifest⟩, ⟨true, .stored emptyManifest, []⟩, 0, 0, 0, 0, 0, 0⟩
      hnd rfl hd0 (fun c _ => rfl) hart
  rw [h1, buildDone_enabled cfg A hash hen candidates]
  -- run 2
  have h2 : fullRun cfg A hash cacheDir candidates dist0
      (saveManifest
        (runCandidates cfg A hash candidates
          ⟨dist0, ⟨cacheDir, emptyManifest⟩, ⟨true, .stored emptyManifest, []⟩,
            0, 0, 0, 0, 0, 0⟩).1.mgr
        (runCandidates cfg A hash candidates
          ⟨dist0, ⟨cacheDir, emptyManifest⟩, ⟨true, .stored emptyManifest, []⟩,
            0, 0, 0, 0, 0, 0⟩).1.cfs)
      = buildDone cfg A hash candidates
          ⟨dist0,
            ⟨cacheDir, (runCandidates cfg A hash candidates
              ⟨dist0, ⟨cacheDir, emptyManifest⟩, ⟨true, .stored emptyManifest, []⟩,
                0, 0, 0, 0, 0, 0⟩).1.mgr.manifest⟩,
            saveManifest
              (runCandidates cfg A hash candidates
                ⟨dist0, ⟨cacheDir, emptyManifest⟩, ⟨true, .stored emptyManifest, []⟩,
                  0, 0, 0, 0, 0, 0⟩).1.mgr
              (runCandidates cfg A hash candidates
                ⟨dist0, ⟨cacheDir, emptyManifest⟩, ⟨true, .stored emptyManifest, []⟩,
                  0, 0, 0, 0, 0, 0⟩).1.cfs,
            0, 0, 0, 0, 0, 0⟩ := by
    unfold fullRun
    rw [configDone_enabled_stored cfg hen cacheDir _ _ rfl (by
      show (saveManifest _ _).dirExists = true
      rw [saveManifest]
      exact r1dir)]
  rw [h2, buildDone_enabled cfg A hash hen candidates]
  obtain ⟨r2dist, r2mgr, r2cfs, r2proc, r2outs⟩ :=
    run2_spec cfg A hash hen (fun c => (lookupA dist0 c).getD []) cacheDir candidates
      ⟨dist0,
        ⟨cacheDir, (runCandidates cfg A hash candidates
          ⟨dist0, ⟨cacheDir, emptyManifest⟩, ⟨true, .stored emptyManifest, []⟩,
            0, 0, 0, 0, 0, 0⟩).1.mgr.manifest⟩,
        saveManifest
          (runCandidates cfg A hash candidates
            ⟨dist0, ⟨cacheDir, emptyManifest⟩, ⟨true, .stored emptyManifest, []⟩,
              0, 0, 0, 0, 0, 0⟩).1.mgr
          (runCandidates cfg A hash candidates
            ⟨dist0, ⟨cacheDir, emptyManifest⟩, ⟨true, .stored emptyManifest, []⟩,
              0, 0, 0, 0, 0, 0⟩).1.cfs,
        0, 0, 0, 0, 0, 0⟩
      hnd rfl hd0
      (fun c hc hcq => r1cached c hc hcq)
      (fun c hc hcq => by
        show lookupA (saveManifest _ _).artifacts _ = _
        rw [saveManifest]
        exact r1art c hc hcq)
      (fun c hc hcq => r1uncached c hc hcq)
  refine ⟨?_, ?_, ?_, ?_, ?_⟩
  · dsimp only
    rw [r2dist, r1dist]
  · dsimp only
    rw [r2cfs, r2mgr]
    rfl
  · dsimp only
    rw [r2mgr]
  · dsimp only
    rw [r2proc]
  · dsimp only
    rw [r2outs]
    refine List.map_congr_left ?_
    intro c hc
    by_cases hcq : cachedQ cfg A (fun c => (lookupA dist0 c).getD []) c = true
    · obtain ⟨t, he⟩ := r1cached c hc hcq
      rw [hcq, he]
      simp
    · have hcq2 : cachedQ cfg A (fun c => (lookupA dist0 c).getD []) c = false := by
        cases hb : cachedQ cfg A (fun c => (lookupA dist0 c).getD []) c
        · rfl
        · exact absurd hb hcq
      rw [hcq2, r1uncached c hc hcq2]
      simp

/-- Adapters for the C1 witness: CSS minification shrinks the candidate. -/
def c1Adapters : Adapters :=
  ⟨fun _ => .err "image", fun _ => .err "html", fun _ => .err "js", fun _ => .err "svg",
   fun _ => .ok ⟨[1, 2], 2⟩⟩

/-- Hash function for the C1 witness (injective enough on its inputs). -/
def c1Hash : List Nat → String := fun b => "h" ++ toString b.length

/-- Config for the C1 witness: caching enabled, `css` configured. -/
def c1Cfg : CompressionConfig := ⟨[("css", Json.obj [])], true⟩

/-- The C1 witness's first run from a pristine cache. -/
def c1Run1 : PipelineState × List Outcome :=
  fullRun c1Cfg c1Adapters c1Hash "cd" ["a.css"] [("a.css", [1, 2, 3])] emptyCacheFS

/-- Witness for C1 at a one-candidate build: the hypotheses hold
concretely, and the second run changes no bytes, no cache state and no
manifest, processes nothing, and reports the single candidate as a cache
hit. -/
theorem claim_C1_witness :
    (["a.css"] : List String).Nodup ∧
    (∀ c ∈ (["a.css"] : List String), lookupA [("a.css", [1, 2, 3])] c ≠ none) ∧
    (fullRun c1Cfg c1Adapters c1Hash "cd" ["a.css"] [("a.css", [1, 2, 3])] c1Run1.1.cfs).1.dist
      = c1Run1.1.dist ∧
    (fullRun c1Cfg c1Adapters c1Hash "cd" ["a.css"] [("a.css", [1, 2, 3])] c1Run1.1.cfs).1.cfs
      = c1Run1.1.cfs ∧
    (fullRun c1Cfg c1Adapters c1Hash "cd" ["a.css"]
        [("a.css", [1, 2, 3])] c1Run1.1.cfs).1.mgr.manifest
      = c1Run1.1.mgr.manifest ∧
    (fullRun c1Cfg c1Adapters c1Hash "cd" ["a.css"]
        [("a.css", [1, 2, 3])] c1Run1.1.cfs).1.processedFiles = 0 ∧
    (fullRun c1Cfg c1Adapters c1Hash "cd" ["a.css"] [("a.css", [1, 2, 3])] c1Run1.1.cfs).2
      = [Outcome.hit] := by
  have h := claim_C1_idempotent c1Cfg c1Adapters c1Hash "cd" ["a.css"] [("a.css", [1, 2, 3])]
    rfl (by decide) (by decide) (by simp)
  exact ⟨by decide, by decide, h.1, h.2.1, h.2.2.1, h.2.2.2.1, h.2.2.2.2.trans (by rfl)⟩

end MySongCompress
